import Mathlib

/-!
Verification of the pkr-hand-parser core against its specification.

This file gives a shallow embedding, in Lean 4, of the hand-history
parser and street decision-evaluation engines found under
src/pkr_parser (hand_parser.py, ev_tools.py, decision_engine.py,
equity_engine.py, flop_equity_engine.py, turn_engine.py), and proves or
refutes a list of claims about that code.

Modelling conventions used throughout:
- Python floats are modelled by the rationals; all arithmetic in the
  source is elementary (+, -, *, /, comparisons), so exact rational
  arithmetic is a faithful model of the computations the claims are
  about.  The Python float-formatting round trip float(f-string with
  three decimals) is modelled by exact rounding to three decimals;
  every constant that reaches it in the source is already an exact
  multiple of 1/1000, so the choice of tie-breaking is immaterial.
- Python None is modelled by Option; a dataclass or dict is modelled by
  a structure.  Human-readable free-text fields (comments, explanation
  strings, notes) carry no decision content and are omitted from the
  embedded records; every field that any computation reads is kept.
- Python exceptions are modelled by Except PyErr; a function that
  cannot raise is total.
- Python keyword-argument binding is modelled explicitly where it
  matters: a call raises TypeError when it passes a keyword the callee
  does not accept or omits a required keyword-only parameter.
-/

namespace Pkr

/-- Exceptions that the embedded code can raise. -/
inductive PyErr where
  | typeError
  | valueError
deriving DecidableEq, Repr

/-- Betting street, source field Action.street. -/
inductive Street where
  | preflop
  | flop
  | turn
  | river
deriving DecidableEq, Repr

/-- Action kind, source field Action.action; the parser emits exactly
these eight strings. -/
inductive ActKind where
  | post_sb
  | post_bb
  | bet
  | raise
  | call
  | check
  | fold
  | uncalled
deriving DecidableEq, Repr

/-- Source dataclass Action of hand_parser.py (street, player, action,
amount plus the four derived fields filled in by pot annotation). -/
structure Action where
  street : Street
  player : String
  action : ActKind
  amount : Option ℚ := none
  amount_bb : Option ℚ := none
  pot_before : Option ℚ := none
  pot_after : Option ℚ := none
  pct_pot : Option ℚ := none
deriving DecidableEq, Repr

/-- Source dataclass Player of hand_parser.py. -/
structure Player where
  seat : ℕ
  name : String
  stack : ℚ
  position : Option String := none
deriving DecidableEq, Repr

/-- Source dataclass Winner of hand_parser.py. -/
structure Winner where
  player : String
  amount : ℚ
deriving DecidableEq, Repr

/-- Source dataclass ShowdownEntry of hand_parser.py (cards are kept as
raw two-character tokens). -/
structure ShowdownEntry where
  player : String
  cards : List String
  result : Option String := none
  won_amount : Option ℚ := none
  description : Option String := none
deriving DecidableEq, Repr

/-- Card token as produced by the parsing regexes: a rank character and
a suit character. -/
structure Card where
  rank : Char
  suit : Char
deriving DecidableEq, Repr

/-- Python truthiness of an optional string: None and the empty string
are falsy. -/
def py_truthy_str : Option String → Bool
  | none => false
  | some s => !s.isEmpty

-- ---------------------------------------------------------------------
-- ev_tools.py
-- ---------------------------------------------------------------------

/-- Source function _clamp01 of ev_tools.py. -/
def clamp01 (x : ℚ) : ℚ :=
  if x < 0 then 0 else if x > 1 then 1 else x

/-- Source function ev_fold of ev_tools.py. -/
def ev_fold : ℚ := 0

/-- Source function ev_call_check of ev_tools.py:
EV = equity * (pot_before + investment) - investment. -/
def ev_call_check (pot_before investment equity : ℚ) : ℚ :=
  clamp01 equity * (pot_before + investment) - investment

/-- Source function ev_bet_raise of ev_tools.py:
EV = FE * pot_before + (1-FE) * (equity_if_called * final_pot_if_called
- investment), with final_pot_if_called defaulting to
pot_before + 2 * investment. -/
def ev_bet_raise (pot_before investment equity_if_called : ℚ)
    (fold_equity : Option ℚ) (final_pot_if_called : Option ℚ) : ℚ :=
  let e := clamp01 equity_if_called
  let fe := match fold_equity with
    | none => 0
    | some f => clamp01 f
  let final_pot := match final_pot_if_called with
    | none => pot_before + 2 * investment
    | some fp => fp
  fe * pot_before + (1 - fe) * (e * final_pot - investment)

/-- Record built by _make_ev_estimate of ev_tools.py.  The label,
assumptions, context, alternatives and explanation fields are
free-text/pass-through data and are omitted; ev_action is the single
numeric EV (the source stores it twice, under ev_action and the legacy
key ev). -/
structure EvEstimate where
  street : String
  action_kind : String
  ev_action : ℚ
  pot_before : Option ℚ
  investment : Option ℚ
  estimated_equity : Option ℚ
  fold_equity : Option ℚ
  final_pot_if_called : Option ℚ
  model : String
  confidence : ℚ
deriving DecidableEq, Repr

/-- Source function compute_ev_estimate_v1 of ev_tools.py (the
semantics of a successfully bound call; keyword binding of call sites
is modelled separately). -/
def compute_ev_estimate_v1 (street : String) (action_kind : String)
    (pot_before investment estimated_equity : Option ℚ)
    (fold_equity : Option ℚ := none)
    (final_pot_if_called : Option ℚ := none) : EvEstimate :=
  let ak := action_kind.toLower
  match pot_before, estimated_equity with
  | none, _ =>
      ⟨street, action_kind, 0, pot_before, investment, estimated_equity,
        fold_equity, final_pot_if_called, "v1_baseline", 0.3⟩
  | some pb, none =>
      ⟨street, action_kind, 0, some pb, investment, none,
        fold_equity, final_pot_if_called, "v1_baseline", 0.3⟩
  | some pb, some eqv =>
      let eqc := clamp01 eqv
      match investment with
      | none =>
          if ak = "check" ∨ ak = "fold" then
            ⟨street, action_kind, 0, some pb, none, some eqc,
              fold_equity, final_pot_if_called, "v1_baseline", 0.5⟩
          else
            ⟨street, action_kind, 0, some pb, none, some eqc,
              fold_equity, final_pot_if_called, "v1_baseline", 0.35⟩
      | some inv =>
          if ak = "fold" then
            ⟨street, action_kind, 0, some pb, some inv, some eqc,
              fold_equity, final_pot_if_called, "v1_baseline", 0.6⟩
          else if ak = "call" ∨ ak = "check" then
            ⟨street, action_kind, ev_call_check pb inv eqc, some pb,
              some inv, some eqc, fold_equity, final_pot_if_called,
              "v1_baseline", 0.5⟩
          else if ak = "bet" ∨ ak = "raise" ∨ ak = "3bet" ∨ ak = "4bet"
              ∨ ak = "allin" ∨ ak = "all-in" ∨ ak = "jam" then
            let fe := match fold_equity with
              | none => 0
              | some f => clamp01 f
            ⟨street, action_kind,
              ev_bet_raise pb inv eqc (some fe) final_pot_if_called,
              some pb, some inv, some eqc, some fe, final_pot_if_called,
              "v1_baseline", 0.5⟩
          else
            ⟨street, action_kind, 0, some pb, some inv, some eqc,
              fold_equity, final_pot_if_called, "v1_baseline", 0.35⟩

/-- Keyword parameters accepted by compute_ev_estimate_v1 (its
signature is keyword-only). -/
def compute_ev_estimate_v1_kwnames : List String :=
  ["street", "action_kind", "pot_before", "investment",
   "estimated_equity", "fold_equity", "final_pot_if_called",
   "ev_action_label", "ev_action", "assumptions", "confidence",
   "context", "alternatives"]

/-- Keyword parameters of compute_ev_estimate_v1 that have no default
value and therefore must be passed. -/
def compute_ev_estimate_v1_required : List String :=
  ["street", "action_kind", "pot_before", "investment",
   "estimated_equity"]

/-- Keyword arguments that evaluate_hero_turn_decision of
turn_engine.py passes to compute_ev_estimate_v1. -/
def turn_ev_call_kwargs : List String :=
  ["action_kind", "sizing", "equity_estimate", "facing_bet"]

/-- Python keyword binding check for a call with only keyword
arguments: succeeds when every passed keyword is accepted and every
required keyword is passed; otherwise the call raises TypeError. -/
def py_kw_bind_ok (accepted required passed : List String) : Bool :=
  passed.all (fun k => accepted.contains k) &&
    required.all (fun k => passed.contains k)

-- ---------------------------------------------------------------------
-- decision_engine.py
-- ---------------------------------------------------------------------

/-- Source dataclass PreflopDecisionMath of decision_engine.py. -/
structure PreflopDecisionMath where
  pot_before : Option ℚ
  investment : Option ℚ
  pot_odds : Option ℚ
  required_equity : Option ℚ
  estimated_equity : Option ℚ
  ev_simple : Option ℚ
  model : Option String := none
  fold_equity : Option ℚ := none
  final_pot_if_called : Option ℚ := none
deriving DecidableEq, Repr

/-- Source table POSITION_ORDER of decision_engine.py (a dict; lookup
of an unknown key gives None). -/
def POSITION_ORDER (pos : String) : Option ℕ :=
  if pos = "UTG" then some 0
  else if pos = "MP" then some 1
  else if pos = "HJ" then some 2
  else if pos = "CO" then some 3
  else if pos = "BTN" then some 4
  else if pos = "SB" then some 5
  else if pos = "BB" then some 6
  else none

/-- Source table MOS_POSITION_ORDER of decision_engine.py. -/
def MOS_POSITION_ORDER (pos : String) : Option ℕ :=
  if pos = "EP" then some 0
  else if pos = "MP" then some 1
  else if pos = "HJ" then some 2
  else if pos = "CO" then some 3
  else none

/-- Source function _safe_positive of decision_engine.py: a value that
is missing or not strictly positive degrades to None. -/
def safe_positive (value : Option ℚ) : Option ℚ :=
  match value with
  | none => none
  | some v => if v ≤ 0 then none else some v

/-- Source function _estimate_fold_equity of decision_engine.py.  The
position defaults to CO when missing or empty (Python or-chain on a
falsy string), unknown positions fall back to 0.40 in the open/iso
rows. -/
def estimate_fold_equity (action_type : Option String)
    (hero_position : Option String) (facing_raises : Option ℕ)
    (effective_stack_bb : Option ℚ) : ℚ :=
  let pos := (match hero_position with
    | none => "CO"
    | some s => if s = "" then "CO" else s).toUpper
  let fe_open_by_pos : String → Option ℚ := fun p =>
    if p = "UTG" then some 0.35
    else if p = "MP" then some 0.38
    else if p = "HJ" then some 0.42
    else if p = "CO" then some 0.48
    else if p = "BTN" then some 0.52
    else if p = "SB" then some 0.30
    else if p = "BB" then some 0.10
    else none
  let base0 : ℚ :=
    if action_type = some "open_raise" then (fe_open_by_pos pos).getD 0.40
    else if action_type = some "iso_raise" then
      (fe_open_by_pos pos).getD 0.40 - 0.05
    else if action_type = some "3bet" then
      (if pos = "CO" ∨ pos = "BTN" then 0.50 else 0.45)
    else if action_type = some "4bet" then 0.55
    else if action_type = some "5bet_plus" then 0.65
    else 0.30
  let fr := facing_raises.getD 0
  let base1 := if fr ≥ 2 then base0 - 0.05 else base0
  let base2 := match effective_stack_bb with
    | none => base1
    | some eff =>
        if eff < 40 then base1 - 0.05
        else if eff > 120 then base1 + 0.05
        else base1
  max 0.05 (min 0.75 base2)

/-- Source function compute_preflop_math of decision_engine.py.  Note
that both of its EV formulas subtract (1 - equity) * investment, not
investment as the shared ev_tools functions do. -/
def compute_preflop_math (pot_before investment estimated_equity : Option ℚ)
    (action_type : Option String) (hero_position : Option String)
    (facing_raises : Option ℕ) (effective_stack_bb : Option ℚ) :
    PreflopDecisionMath :=
  let pot_b := safe_positive pot_before
  let inv := safe_positive investment
  let equity := estimated_equity
  let pot_odds := match pot_b, inv with
    | some pb, some i => some (i / (pb + i))
    | _, _ => none
  let required_equity := pot_odds
  match pot_b, inv, equity with
  | some pb, some i, some e =>
      let raise_like :=
        action_type = some "open_raise" ∨ action_type = some "iso_raise" ∨
        action_type = some "3bet" ∨ action_type = some "4bet" ∨
        action_type = some "5bet_plus"
      if raise_like then
        let fe := estimate_fold_equity action_type hero_position
          facing_raises effective_stack_bb
        let final_pot := pb + 2 * i
        let ev := fe * pb + (1 - fe) * (e * final_pot - (1 - e) * i)
        ⟨some pb, some i, pot_odds, required_equity, some e, some ev,
          some "raise_fe_model", some fe, some final_pot⟩
      else
        let ev := e * (pb + i) - (1 - e) * i
        ⟨some pb, some i, pot_odds, required_equity, some e, some ev,
          some "call_model", none, none⟩
  | _, _, _ =>
      ⟨pot_b, inv, pot_odds, required_equity, equity, none, none, none,
        none⟩

/-- Source function _classify_decision_quality_base of
decision_engine.py. -/
def classify_decision_quality_base (math : PreflopDecisionMath) : String :=
  match math.estimated_equity, math.required_equity with
  | some e, some r =>
      let edge := e - r
      if edge ≥ 0.06 then "good"
      else if 0 ≤ edge then "marginal"
      else if -0.05 ≤ edge then "mistake"
      else "blunder"
  | _, _ => "unknown"

/-- Record returned by _compute_range_discipline of decision_engine.py
(the range_comment free-text field is omitted). -/
structure RangeDiscipline where
  in_mos : Bool
  position_ok : Option Bool
  hero_position : Option String
  mos_min_position : Option String
  error_type : Option String
deriving DecidableEq, Repr

/-- Source function _compute_range_discipline of decision_engine.py
(hand_key is only interpolated into the omitted comment text, so it is
an unused parameter here). -/
def compute_range_discipline (hero_position : Option String)
    (mos_min_position : Option String) (hand_key : Option String)
    (action_type : Option String) (was_first_in : Option Bool) :
    Option RangeDiscipline :=
  let _ := hand_key
  if action_type = some "fold_preflop" ∧ was_first_in = some true then
    match mos_min_position with
    | none => none
    | some m =>
        let mos_idx := MOS_POSITION_ORDER m
        let hero_idx := match hero_position with
          | none => none
          | some hp => POSITION_ORDER hp
        match mos_idx, hero_idx with
        | some mi, some hi =>
            if hi ≥ mi then
              some ⟨true, some true, hero_position, some m,
                some "too_tight_fold"⟩
            else
              some ⟨true, some false, hero_position, some m, none⟩
        | _, _ =>
            some ⟨true, none, hero_position, some m,
              some "too_tight_fold"⟩
  else if action_type = some "open_raise" ∨ action_type = some "open_limp"
      ∨ action_type = some "iso_raise" ∨ action_type = some "overlimp" then
    match mos_min_position with
    | none =>
        some ⟨false, some false, hero_position, none,
          some "too_loose_open"⟩
    | some m =>
        let mos_idx := MOS_POSITION_ORDER m
        let hero_idx := match hero_position with
          | none => none
          | some hp => POSITION_ORDER hp
        match mos_idx, hero_idx with
        | some mi, some hi =>
            if hi ≥ mi then
              some ⟨true, some true, hero_position, some m, none⟩
            else
              some ⟨true, some false, hero_position, some m,
                some "too_early_position_open"⟩
        | _, _ => some ⟨true, none, hero_position, some m, none⟩
  else none

/-- Source function _adjust_quality_by_range_discipline of
decision_engine.py. -/
def adjust_quality_by_range_discipline (base_quality : String)
    (range_discipline : Option RangeDiscipline) : String :=
  match range_discipline with
  | none => base_quality
  | some rd =>
      if rd.error_type = some "too_loose_open" ∨
          rd.error_type = some "too_early_position_open" then
        if base_quality = "good" then "marginal"
        else if base_quality = "marginal" then "mistake"
        else if base_quality = "mistake" then "blunder"
        else base_quality
      else if rd.error_type = some "too_tight_fold" then
        if base_quality = "unknown" ∨ base_quality = "marginal" ∨
            base_quality = "good" then "mistake"
        else base_quality
      else base_quality

-- ---------------------------------------------------------------------
-- equity_engine.py
-- ---------------------------------------------------------------------

/-- Source constant RANKS of equity_engine.py, as a character list. -/
def RANKS : List Char := "23456789TJQKA".toList

/-- Source table RANK_TO_INDEX of equity_engine.py: the position of a
rank character inside RANKS, None for anything else. -/
def rank_to_index (c : Char) : Option ℕ :=
  if c = '2' then some 0
  else if c = '3' then some 1
  else if c = '4' then some 2
  else if c = '5' then some 3
  else if c = '6' then some 4
  else if c = '7' then some 5
  else if c = '8' then some 6
  else if c = '9' then some 7
  else if c = 'T' then some 8
  else if c = 'J' then some 9
  else if c = 'Q' then some 10
  else if c = 'K' then some 11
  else if c = 'A' then some 12
  else none

/-- Source function _get_rank of equity_engine.py: first character of
the token, uppercased; a token shorter than two characters raises
ValueError, modelled as None. -/
def get_rank (card : String) : Option Char :=
  match card.data with
  | r :: _ :: _ => some r.toUpper
  | _ => none

/-- Source function _get_suit of equity_engine.py: second character of
the token, lowercased; a token shorter than two characters raises
ValueError, modelled as None. -/
def get_suit (card : String) : Option Char :=
  match card.data with
  | _ :: s :: _ => some s.toLower
  | _ => none

/-- Source function normalize_hand_key of equity_engine.py.  None
models the ValueError raised on a malformed input. -/
def normalize_hand_key (hero_cards : List String) : Option String :=
  match hero_cards with
  | [c1, c2] =>
      match get_rank c1, get_suit c1, get_rank c2, get_suit c2 with
      | some r1, some s1, some r2, some s2 =>
          match rank_to_index r1, rank_to_index r2 with
          | some i1, some i2 =>
              if r1 = r2 then some (String.mk [r1, r2])
              else
                let hls : Char × Char × Char × Char :=
                  if i1 > i2 then (r1, r2, s1, s2) else (r2, r1, s2, s1)
                let suited := hls.2.2.1 = hls.2.2.2
                some (String.mk
                  [hls.1, hls.2.1, if suited then 's' else 'o'])
          | _, _ => none
      | _, _, _, _ => none
  | _ => none

/-- Source table RFI_MOS_RANGES of equity_engine.py, EP row. -/
def RFI_MOS_EP : List String :=
  ["22", "33", "44", "55", "66",
   "76s", "77", "87s", "88", "98s", "99",
   "A2s", "A3s", "A4s", "A5s", "A6s", "A7s", "A8s", "A9s",
   "AA",
   "AJo", "AJs", "AKo", "AKs", "AQo", "AQs", "ATo", "ATs",
   "J8s", "J9s",
   "JJ", "JTs",
   "K8s", "K9s", "KJo", "KJs", "KK", "KQo", "KQs", "KTs",
   "Q8s", "Q9s", "QJs", "QQ", "QTs",
   "T8s", "T9s", "TT"]

/-- Source table RFI_MOS_RANGES of equity_engine.py, MP row. -/
def RFI_MOS_MP : List String :=
  ["65s", "86s", "97s",
   "A6s", "A7s", "A9o",
   "J7s", "JTo",
   "K6s", "K7s", "KTo",
   "Q7s", "QJo", "QQ", "QTo",
   "T7s"]

/-- Source table RFI_MOS_RANGES of equity_engine.py, HJ row. -/
def RFI_MOS_HJ : List String :=
  ["54s", "96s",
   "A2s", "A3s", "A4s", "A5s", "A8o",
   "J6s", "J9o",
   "K2s", "K3s", "K4s", "K5s", "K6s", "K9o",
   "Q5s", "Q6s", "Q9o",
   "T6s", "T9o"]

/-- Source table RFI_MOS_RANGES of equity_engine.py, CO row. -/
def RFI_MOS_CO : List String :=
  ["32s", "43s", "64s", "74s", "75s", "84s", "85s", "94s", "95s",
   "98o",
   "A2o", "A3o", "A4o", "A5o", "A6o", "A7o",
   "J2s", "J3s", "J4s", "J5s", "J8o",
   "K2s", "K3s", "K4s", "K8o",
   "Q2s", "Q3s", "Q4s", "Q5s", "Q8o",
   "T4s", "T5s", "T8o"]

/-- Source function get_mos_min_position of equity_engine.py: scan the
ranges in the fixed order EP, MP, HJ, CO and return the first position
whose range contains the hand key. -/
def get_mos_min_position (hand_key : String) : Option String :=
  if RFI_MOS_EP.contains hand_key then some "EP"
  else if RFI_MOS_MP.contains hand_key then some "MP"
  else if RFI_MOS_HJ.contains hand_key then some "HJ"
  else if RFI_MOS_CO.contains hand_key then some "CO"
  else none

/-- Source function _classify_hand_category_from_mos of
equity_engine.py, returning category, strength score and minimum
position (the notes string is omitted). -/
def classify_hand_category_from_mos (hand_key : String) :
    String × ℚ × Option String :=
  match get_mos_min_position hand_key with
  | none => ("trash", 0.45, none)
  | some mos_pos =>
      if mos_pos = "EP" then ("premium", 0.95, some "EP")
      else if mos_pos = "MP" then ("strong", 0.85, some "MP")
      else if mos_pos = "HJ" then ("medium", 0.75, some "HJ")
      else ("speculative", 0.65, some "CO")

/-- Exact rounding to three decimal places, modelling the Python
round(x, 3) and float(f-string) round trips; every value the source
feeds through them is already an exact multiple of 1/1000. -/
def round3 (q : ℚ) : ℚ := (round (q * 1000) : ℤ) / 1000

/-- Exact rounding to four decimal places (river engine formatting). -/
def round4 (q : ℚ) : ℚ := (round (q * 10000) : ℤ) / 10000

/-- Source dataclass PreflopEquityEstimate of equity_engine.py (the
notes string is omitted). -/
structure PreflopEquityEstimate where
  hand_key : String
  category : String
  strength_score : ℚ
  estimated_equity_vs_unknown : ℚ
  hero_position : Option String := none
  villain_position : Option String := none
  mos_min_position : Option String := none
deriving DecidableEq, Repr

/-- Source function estimate_preflop_equity_vs_unknown_range of
equity_engine.py; None models the ValueError propagated from
normalize_hand_key on malformed cards. -/
def estimate_preflop_equity_vs_unknown_range (hero_cards : List String)
    (hero_position villain_position : Option String) :
    Option PreflopEquityEstimate :=
  match normalize_hand_key hero_cards with
  | none => none
  | some hand_key =>
      let cat := classify_hand_category_from_mos hand_key
      let category := cat.1
      let strength_score := cat.2.1
      let mos_pos := cat.2.2
      let base_equity : ℚ :=
        if category = "premium" then 0.68
        else if category = "strong" then 0.60
        else if category = "medium" then 0.56
        else if category = "speculative" then 0.52
        else if category = "trash" then 0.47
        else 0.50
      let delta := (strength_score - 0.7) * 0.08
      let estimated_equity := max 0.35 (min 0.80 (base_equity + delta))
      some ⟨hand_key, category, round3 strength_score,
        round3 estimated_equity, hero_position, villain_position,
        mos_pos⟩

-- ---------------------------------------------------------------------
-- hand_parser.py: pot annotation
-- ---------------------------------------------------------------------

/-- Per-street pot snapshots returned by
annotate_actions_with_pot_and_bb of hand_parser.py. -/
structure Pots where
  preflop : Option ℚ := none
  flop : Option ℚ := none
  turn : Option ℚ := none
  river : Option ℚ := none
deriving DecidableEq, Repr

/-- Helper fix_street of annotate_actions_with_pot_and_bb. -/
def fix_street (pots : Pots) (s : Street) (v : ℚ) : Pots :=
  match s with
  | .preflop => { pots with preflop := some v }
  | .flop => { pots with flop := some v }
  | .turn => { pots with turn := some v }
  | .river => { pots with river := some v }

/-- Dictionary read with default 0, modelling committed.get(p, 0.0). -/
def map_get (m : List (String × ℚ)) (k : String) : ℚ :=
  (m.lookup k).getD 0

/-- Dictionary write, modelling committed[p] = v; the newest binding
shadows older ones and lookup finds the newest first. -/
def map_set (m : List (String × ℚ)) (k : String) (v : ℚ) :
    List (String × ℚ) :=
  (k, v) :: m

/-- Street-boundary handling of annotate_actions_with_pot_and_bb: at a
street change, record the final pot of the closing street and reset the
committed map. -/
def street_switch (a : Action) (cur : Street)
    (committed : List (String × ℚ)) (pots : Pots) (pot : ℚ) :
    Street × List (String × ℚ) × Pots :=
  if a.street ≠ cur then (a.street, [], fix_street pots cur pot)
  else (cur, committed, pots)

/-- Pot and committed-map update of annotate_actions_with_pot_and_bb
for one action: posts, bets and calls add the full amount, a raise adds
only the non-negative delta over that player's prior commitment this
street, an uncalled return subtracts the returned amount. -/
def pot_step (a : Action) (pot : ℚ) (com : List (String × ℚ)) :
    ℚ × List (String × ℚ) :=
  if a.action = .post_sb ∨ a.action = .post_bb ∨
      a.action = .bet ∨ a.action = .call then
    match a.amount with
    | some amt =>
        (pot + amt, map_set com a.player (map_get com a.player + amt))
    | none => (pot, com)
  else if a.action = .raise then
    match a.amount with
    | some amt =>
        let prev := map_get com a.player
        let delta := if amt - prev < 0 then 0 else amt - prev
        (pot + delta, map_set com a.player amt)
    | none => (pot, com)
  else if a.action = .uncalled then
    match a.amount with
    | some amt => (pot - amt, com)
    | none => (pot, com)
  else (pot, com)

/-- Field stamping of annotate_actions_with_pot_and_bb for one action:
pot before and after, amount in big blinds, fraction of the pot. -/
def annotate_one (bb : Option ℚ) (a : Action) (pot potA : ℚ) : Action :=
  { a with
    pot_before := some pot,
    pot_after := some potA,
    amount_bb :=
      match bb, a.amount with
      | some b, some amt => if b ≠ 0 ∧ b > 0 then some (amt / b) else none
      | _, _ => none,
    pct_pot :=
      match a.amount with
      | some amt => if pot ≠ 0 ∧ pot > 0 then some (amt / pot) else none
      | none => none }

/-- Loop body of annotate_actions_with_pot_and_bb of hand_parser.py:
walk the actions once, carrying the running pot, the current street and
the per-player committed map (reset at each street boundary), stamping
pot_before, pot_after, amount_bb and pct_pot on each action and
recording the final pot of each street. -/
def annotate_loop (bb : Option ℚ) :
    List Action → ℚ → Street → List (String × ℚ) → Pots →
    List Action × Pots
  | [], pot, cur, _, pots => ([], fix_street pots cur pot)
  | a :: rest, pot, cur, committed, pots =>
      let st := street_switch a cur committed pots pot
      let step := pot_step a pot st.2.1
      let restOut := annotate_loop bb rest step.1 st.1 step.2 st.2.2
      (annotate_one bb a pot step.1 :: restOut.1, restOut.2)

/-- Source function annotate_actions_with_pot_and_bb of
hand_parser.py.  The Python function mutates the action list in place
and returns the pot dict; here it returns the annotated list together
with the pots. -/
def annotate_actions_with_pot_and_bb (actions : List Action)
    (big_blind : Option ℚ) : List Action × Pots :=
  match actions with
  | [] => ([], {})
  | a :: _ => annotate_loop big_blind actions 0 a.street [] {}

-- ---------------------------------------------------------------------
-- hand_parser.py: positions
-- ---------------------------------------------------------------------

/-- Seat walk step of assign_positions: the first seat strictly greater
than the current one in the sorted seat list, wrapping around to the
smallest seat. -/
def cyclic_next (seats_sorted : List ℕ) (current : ℕ) : ℕ :=
  match seats_sorted.filter (fun s => current < s) with
  | [] => seats_sorted.headD 0
  | x :: _ => x

/-- While-loop of assign_positions of hand_parser.py, with explicit
fuel (the Python loop terminates because the seats are distinct dict
keys; seats_sorted.length iterations always suffice, as proved below). -/
def rotation_loop (seats_sorted : List ℕ) :
    ℕ → List ℕ → ℕ → List ℕ
  | 0, ordered, _ => ordered
  | fuel + 1, ordered, current =>
      if ordered.length < seats_sorted.length then
        let nxt := cyclic_next seats_sorted current
        if nxt ∈ ordered then rotation_loop seats_sorted fuel ordered nxt
        else rotation_loop seats_sorted fuel (ordered ++ [nxt]) nxt
      else ordered

/-- Fixed position-name table of assign_positions of hand_parser.py,
indexed by the number of distinct seats. -/
def pos_table (n : ℕ) : List String :=
  if n = 1 then ["BTN"]
  else if n = 2 then ["BTN", "BB"]
  else if n = 3 then ["BTN", "SB", "BB"]
  else if n = 4 then ["BTN", "SB", "BB", "UTG"]
  else if n = 5 then ["BTN", "SB", "BB", "UTG", "MP"]
  else ["BTN", "SB", "BB", "UTG", "MP", "CO"]

/-- Source function assign_positions of hand_parser.py.  The Python
seat_to_player dict keeps, for each seat, the last player with that
seat; this is modelled by looking the seat up in the reversed list.
max_players is an unused parameter in the source as well. -/
def assign_positions (players : List Player) (button_seat : Option ℕ)
    (max_players : Option ℕ) : List Player :=
  let _ := max_players
  match button_seat with
  | none => players
  | some b =>
      if players = [] then players
      else
        let seat_keys := (players.map (fun p => p.seat)).dedup
        let seats_sorted := seat_keys.insertionSort (· ≤ ·)
        if b ∈ seat_keys then
          let ordered := rotation_loop seats_sorted seats_sorted.length [b] b
          let n := ordered.length
          let names := (pos_table n).take n
          let assignment := ordered.zip names
          players.map (fun p =>
            let q := (players.reverse.find? (fun r => r.seat = p.seat)).getD p
            match assignment.lookup q.seat with
            | some nm => { q with position := some nm }
            | none => q)
        else players

-- ---------------------------------------------------------------------
-- hand_parser.py: hero preflop analysis
-- ---------------------------------------------------------------------

/-- Source dataclass HeroPreflopAnalysis of hand_parser.py. -/
structure HeroPreflopAnalysis where
  action_type : Option String
  was_first_in : Option Bool
  facing_raises : ℕ
  facing_callers : ℕ
  villain_raiser : Option String
  hero_position : Option String
  effective_stack_bb : Option ℚ
deriving DecidableEq, Repr

/-- Source function compute_effective_stack_bb of hand_parser.py. -/
def compute_effective_stack_bb (players : List Player)
    (hero_name : Option String) (big_blind : Option ℚ) : Option ℚ :=
  match hero_name, big_blind with
  | some hn, some b =>
      if hn = "" ∨ b = 0 ∨ b ≤ 0 then none
      else
        match players.find? (fun p => p.name = hn) with
        | none => none
        | some hp =>
            let hero_stack_bb := hp.stack / b
            if hero_stack_bb ≤ 0 then none
            else
              let best_eff := players.foldl (fun acc p =>
                if p.name = hn then acc
                else
                  let eff := min hero_stack_bb (p.stack / b)
                  if eff > acc then eff else acc) 0
              if best_eff = 0 then some hero_stack_bb else some best_eff
  | _, _ => none

/-- Hero actions on a street that count as its own moves, excluding
uncalled returns and blind posts (filter used by the preflop
analysis). -/
def hero_voluntary_preflop (preflop_actions : List Action)
    (hn : String) : List Action :=
  preflop_actions.filter (fun a =>
    a.player = hn ∧ a.action ≠ .uncalled ∧ a.action ≠ .post_sb ∧
      a.action ≠ .post_bb)

/-- The body of compute_hero_preflop_analysis after the first voluntary
hero action has been located: everything the source computes from the
`prior` slice and `hero_first`, copied verbatim from hand_parser.py. -/
def analysis_from_prior (prior : List Action) (hero_first : Action)
    (hero_position : Option String) (effective_stack_bb : Option ℚ) :
    HeroPreflopAnalysis :=
  let prior_voluntary := prior.filter (fun a =>
    a.action = .bet ∨ a.action = .raise ∨ a.action = .call)
  let was_first_in := prior_voluntary.length = 0
  let prior_raises := prior.filter (fun a => a.action = .raise)
  let facing_raises := prior_raises.length
  let villain_raiser := (prior_raises.getLast?).map
    (fun a => a.player)
  let facing_callers :=
    if prior_raises ≠ [] then
      let last_raise_idx :=
        (((prior.enum.filter (fun p => p.2.action = .raise)).map
          (fun p => p.1)).max?).getD 0
      ((prior.enum.filter (fun p =>
        last_raise_idx < p.1 ∧ p.2.action = .call))).length
    else (prior.filter (fun a => a.action = .call)).length
  let act_type : String :=
    match hero_first.action with
    | .fold => "fold_preflop"
    | .call =>
        if facing_raises = 0 then
          if facing_callers = 0 then "open_limp" else "overlimp"
        else if facing_raises = 1 then "call_vs_raise"
        else "call_vs_3bet_plus"
    | .raise =>
        if facing_raises = 0 then
          if facing_callers = 0 then "open_raise"
          else "iso_raise"
        else if facing_raises = 1 then "3bet"
        else if facing_raises = 2 then "4bet"
        else "5bet_plus"
    | _ => "unknown"
  ⟨some act_type, some was_first_in, facing_raises,
    facing_callers, villain_raiser, hero_position,
    effective_stack_bb⟩

/-- Source function compute_hero_preflop_analysis of hand_parser.py.
The Python list.index call on the first voluntary hero action is
modelled by findIdx with dataclass equality, exactly as list.index
compares. -/
def compute_hero_preflop_analysis (actions : List Action)
    (players : List Player) (hero_name : Option String)
    (hero_position : Option String) (effective_stack_bb : Option ℚ) :
    Option HeroPreflopAnalysis :=
  let _ := players
  match hero_name with
  | none => none
  | some hn =>
      if hn = "" then none
      else
        let preflop_actions := actions.filter (fun a => a.street = .preflop)
        if preflop_actions = [] then
          some ⟨none, none, 0, 0, none, hero_position, effective_stack_bb⟩
        else
          match hero_voluntary_preflop preflop_actions hn with
          | [] =>
              some ⟨none, none, 0, 0, none, hero_position,
                effective_stack_bb⟩
          | hero_first :: _ =>
              let idx_hero := preflop_actions.findIdx
                (fun a => a == hero_first)
              let prior := preflop_actions.take idx_hero
              some (analysis_from_prior prior hero_first hero_position
                effective_stack_bb)

-- ---------------------------------------------------------------------
-- hand_parser.py: hero flop hand category and detail
-- ---------------------------------------------------------------------

/-- Source function _card_rank of hand_parser.py: numeric rank 2-14
with A = 14, digits read literally, unknown characters mapping to 0. -/
def card_rank (c : Card) : ℕ :=
  if c.rank.isDigit then c.rank.toNat - Char.toNat '0'
  else
    let u := c.rank.toUpper
    if u = 'T' then 10
    else if u = 'J' then 11
    else if u = 'Q' then 12
    else if u = 'K' then 13
    else if u = 'A' then 14
    else 0

/-- Source function _card_suit of hand_parser.py. -/
def card_suit (c : Card) : Char := c.suit.toLower

/-- Source function evaluate_flop_hand_category of hand_parser.py:
rough five-card classification of the hero hand on the flop (first
three board cards only). -/
def evaluate_flop_hand_category (hero_cards : List Card)
    (board : List Card) : Option String :=
  if hero_cards.length ≠ 2 ∨ board.length < 3 then none
  else
    let flop_cards := board.take 3
    let cards := hero_cards ++ flop_cards
    if cards.length ≠ 5 then none
    else
      let ranks := cards.map card_rank
      let suits := cards.map card_suit
      let is_flush := (suits.dedup).any (fun s => suits.count s = 5)
      let unique_ranks := (ranks.dedup).insertionSort (· ≤ ·)
      let is_straight :=
        unique_ranks.length ≥ 5 ∧
          ((unique_ranks.getLast?.getD 0 - unique_ranks.headD 0 = 4 ∧
              unique_ranks.length = 5) ∨
            unique_ranks = [2, 3, 4, 5, 14])
      let rank_counts := (ranks.dedup).map (fun r => ranks.count r)
      if is_flush ∧ is_straight then some "straight_flush"
      else if rank_counts.contains 4 then some "quads"
      else if rank_counts.contains 3 ∧ rank_counts.contains 2 then
        some "full_house"
      else if is_flush then some "flush"
      else if is_straight then some "straight"
      else if rank_counts.contains 3 then some "set"
      else if rank_counts.count 2 ≥ 2 then some "two_pair"
      else if rank_counts.contains 2 then some "pair"
      else some "high_card"

/-- Record built by compute_hero_flop_detail of hand_parser.py. -/
structure FlopHandDetail where
  made_hand : String
  pair_kind : Option String
deriving DecidableEq, Repr

/-- Source function compute_hero_flop_detail of hand_parser.py. -/
def compute_hero_flop_detail (hero_cards : List Card)
    (board : List Card) (hero_flop_hand_category : Option String) :
    Option FlopHandDetail :=
  match hero_flop_hand_category with
  | none => none
  | some cat =>
      if hero_cards.length ≠ 2 ∨ board.length < 3 ∨ cat = "" then none
      else if cat ≠ "pair" then some ⟨cat, none⟩
      else
        let flop_cards := board.take 3
        let hero_ranks := hero_cards.map card_rank
        let board_ranks := flop_cards.map card_rank
        let all_ranks := hero_ranks ++ board_ranks
        let pair_ranks := (all_ranks.dedup).filter
          (fun r => all_ranks.count r = 2)
        match pair_ranks.max? with
        | none => some ⟨cat, none⟩
        | some pair_rank =>
            let top_board := (board_ranks.max?).getD 0
            let bottom_board := (board_ranks.min?).getD 0
            if pair_rank ∉ hero_ranks then some ⟨cat, some "board_pair"⟩
            else if pair_rank ∈ hero_ranks ∧ pair_rank ∉ board_ranks then
              if pair_rank > top_board then some ⟨cat, some "overpair"⟩
              else if pair_rank < bottom_board then
                some ⟨cat, some "underpair"⟩
              else some ⟨cat, some "middle_pair"⟩
            else if pair_rank = top_board then some ⟨cat, some "top_pair"⟩
            else if pair_rank = bottom_board then
              some ⟨cat, some "bottom_pair"⟩
            else some ⟨cat, some "middle_pair"⟩

/-- Source function _estimate_flop_strength_score of hand_parser.py. -/
def estimate_flop_strength_score (category : Option String)
    (pair_kind : Option String) : Option ℚ :=
  match category with
  | none => none
  | some cat =>
      if cat = "straight_flush" then some 0.98
      else if cat = "quads" then some 0.95
      else if cat = "full_house" then some 0.92
      else if cat = "flush" then some 0.86
      else if cat = "straight" then some 0.82
      else if cat = "set" then some 0.78
      else if cat = "two_pair" then some 0.72
      else if cat = "pair" then
        if pair_kind = some "overpair" then some 0.75
        else if pair_kind = some "top_pair" then some 0.70
        else if pair_kind = some "middle_pair" then some 0.55
        else if pair_kind = some "bottom_pair" then some 0.50
        else if pair_kind = some "board_pair" then some 0.35
        else some 0.50
      else if cat = "high_card" then some 0.20
      else some 0.50

-- ---------------------------------------------------------------------
-- flop_equity_engine.py
-- ---------------------------------------------------------------------

/-- Source function _clamp of flop_equity_engine.py. -/
def clamp (value mn mx : ℚ) : ℚ :=
  if value < mn then mn else if value > mx then mx else value

/-- Equity-estimate record produced by the street equity models (the
explanation string is omitted). -/
structure EquityEstimate where
  estimated_equity : ℚ
  model : String
deriving DecidableEq, Repr

/-- Source function estimate_flop_equity_simple of
flop_equity_engine.py. -/
def estimate_flop_equity_simple (category : Option String)
    (pair_kind : Option String) (strength_score : Option ℚ)
    (multiway hero_ip : Bool) (preflop_role : String) :
    Option EquityEstimate :=
  match category, strength_score with
  | some cat, some s =>
      let base0 := clamp (0.5 + (s - 0.5) * 1.3) 0.08 0.92
      let b1 := if multiway then base0 - 0.07 else base0
      let b2 := if !hero_ip then b1 - 0.03 else b1 + 0.02
      let b3 :=
        if preflop_role = "aggressor" then b2 + 0.02
        else if preflop_role = "caller" then b2 - 0.01
        else b2
      let b4 := if cat = "high_card" then b3 - 0.05 else b3
      let b5 := if pair_kind = some "board_pair" then b4 - 0.03 else b4
      let b6 :=
        if cat = "set" ∨ cat = "full_house" ∨ cat = "quads" ∨
            cat = "straight_flush" then b5 + 0.03
        else b5
      some ⟨round3 (clamp b6 0.05 0.95), "simple_flop_category_model"⟩
  | _, _ => none

-- ---------------------------------------------------------------------
-- hand_parser.py: hero flop decision
-- ---------------------------------------------------------------------

/-- String name of an action kind, as stored in the Python Action
records. -/
def actkind_str : ActKind → String
  | .post_sb => "post_sb"
  | .post_bb => "post_bb"
  | .bet => "bet"
  | .raise => "raise"
  | .call => "call"
  | .check => "check"
  | .fold => "fold"
  | .uncalled => "uncalled"

/-- Sizing sub-record of the street decision dicts. -/
structure Sizing where
  amount : Option ℚ
  pot_before : Option ℚ
  pct_pot : Option ℚ
deriving DecidableEq, Repr

/-- Context sub-record of the street decision dicts; the player-count
key is named players_to_flop, players_to_turn, ... per street in the
source. -/
structure StreetContext where
  players_on_street : ℕ
  multiway : Bool
  hero_ip : Bool
  hero_position : Option String
  preflop_role : String
deriving DecidableEq, Repr

/-- Hand sub-record of the flop decision dict. -/
structure FlopHandInfo where
  category : Option String
  pair_kind : Option String
  strength_score : Option ℚ
deriving DecidableEq, Repr

/-- Flop decision dict built by compute_hero_flop_decision of
hand_parser.py (quality_comment and comment free text omitted). -/
structure FlopDecision where
  action_type : String
  action_kind : ActKind
  sizing : Sizing
  context : StreetContext
  hand : FlopHandInfo
  equity_estimate : Option EquityEstimate
  decision_quality : String
deriving DecidableEq, Repr

/-- Source function compute_hero_flop_decision of hand_parser.py. -/
def compute_hero_flop_decision (actions : List Action)
    (hero_name : Option String) (hero_position : Option String)
    (hero_preflop_analysis : Option HeroPreflopAnalysis)
    (hero_flop_hand_category : Option String)
    (hero_flop_hand_detail : Option FlopHandDetail) :
    Option FlopDecision :=
  match hero_name with
  | none => none
  | some hn =>
      if hn = "" then none
      else
        let flop_actions := actions.filter (fun a => a.street = .flop)
        if flop_actions = [] then none
        else
          match flop_actions.filter (fun a =>
              a.player = hn ∧ a.action ≠ .uncalled) with
          | [] => none
          | first :: _ =>
              let idx_first := flop_actions.findIdx (fun a => a == first)
              let prior := flop_actions.take idx_first
              let facing_bet := prior.any (fun a =>
                a.action = .bet ∨ a.action = .raise)
              let preflop_role :=
                match hero_preflop_analysis with
                | none => "unknown"
                | some an =>
                    match an.action_type with
                    | some atype =>
                        if atype = "open_raise" ∨ atype = "iso_raise" ∨
                            atype = "3bet" ∨ atype = "4bet" ∨
                            atype = "5bet_plus" then "aggressor"
                        else if atype = "call_vs_raise" ∨
                            atype = "call_vs_3bet_plus" ∨
                            atype = "open_limp" ∨ atype = "overlimp" then
                          "caller"
                        else if atype = "fold_preflop" then "folder"
                        else "unknown"
                    | none =>
                        if hero_position = some "BB" then "checked_bb"
                        else "unknown"
              let action_type : String :=
                match first.action with
                | .bet =>
                    if preflop_role = "aggressor" ∧ !facing_bet then "cbet"
                    else "bet_vs_check"
                | .check => "check"
                | .call => if facing_bet then "call_vs_bet" else "call"
                | .raise => if facing_bet then "raise_vs_bet" else "raise"
                | .fold => if facing_bet then "fold_vs_bet" else "fold"
                | k => actkind_str k
              let players_to_flop :=
                ((flop_actions.map (fun a => a.player)).dedup).length
              let last_other := (((flop_actions.enum.filter (fun p =>
                p.2.player ≠ hn)).map (fun p => p.1)).max?)
              let hero_ip := match last_other with
                | none => true
                | some m => idx_first > m
              let pair_kind := hero_flop_hand_detail.bind
                (fun d => d.pair_kind)
              let strength_score := estimate_flop_strength_score
                hero_flop_hand_category pair_kind
              let multiway := players_to_flop > 2
              let equity_estimate := estimate_flop_equity_simple
                hero_flop_hand_category pair_kind strength_score multiway
                hero_ip preflop_role
              let decision_quality :=
                match strength_score, hero_flop_hand_category with
                | some s, some _ =>
                    let very_strong := s ≥ 0.75
                    let strong := s ≥ 0.65
                    let medium := 0.45 ≤ s ∧ s < 0.65
                    let weak := s ≤ 0.35
                    if action_type = "cbet" ∨ action_type = "bet_vs_check"
                    then
                      if very_strong ∨ strong then "good"
                      else if medium then "ok"
                      else if ¬multiway ∧ hero_ip then "ok"
                      else "risky"
                    else if action_type = "check" then
                      if very_strong ∧ ¬multiway ∧ hero_ip then "risky"
                      else if weak then "good"
                      else "ok"
                    else if action_type = "call_vs_bet" ∨
                        action_type = "call" then
                      if strong ∨ very_strong then "good"
                      else if weak then "risky"
                      else "ok"
                    else if action_type = "raise_vs_bet" ∨
                        action_type = "raise" then
                      if very_strong then "good"
                      else if strong ∨ medium then "ok"
                      else if ¬multiway ∧ hero_ip then "ok"
                      else "risky"
                    else if action_type = "fold_vs_bet" ∨
                        action_type = "fold" then
                      if strong ∨ very_strong then "bad"
                      else if weak then "good"
                      else "ok"
                    else "unknown"
                | _, _ => "unknown"
              some ⟨action_type, first.action,
                ⟨first.amount, first.pot_before, first.pct_pot⟩,
                ⟨players_to_flop, multiway, hero_ip, hero_position,
                  preflop_role⟩,
                ⟨hero_flop_hand_category, pair_kind, strength_score⟩,
                equity_estimate, decision_quality⟩

-- ---------------------------------------------------------------------
-- turn_engine.py
-- ---------------------------------------------------------------------

/-- Source table RANK_ORDER of turn_engine.py. -/
def RANK_ORDER (c : Char) : Option ℕ :=
  if c = '2' then some 2
  else if c = '3' then some 3
  else if c = '4' then some 4
  else if c = '5' then some 5
  else if c = '6' then some 6
  else if c = '7' then some 7
  else if c = '8' then some 8
  else if c = '9' then some 9
  else if c = 'T' then some 10
  else if c = 'J' then some 11
  else if c = 'Q' then some 12
  else if c = 'K' then some 13
  else if c = 'A' then some 14
  else none

/-- Source function _parse_rank of turn_engine.py. -/
def parse_rank (c : Card) : Option ℕ := RANK_ORDER c.rank.toUpper

/-- Source function _parse_suit of turn_engine.py. -/
def parse_suit (c : Card) : Option Char := some c.suit.toLower

/-- Source function _get_preflop_role of turn_engine.py. -/
def get_preflop_role (hero_preflop_analysis : Option HeroPreflopAnalysis)
    (hero_position : Option String) : String :=
  match hero_preflop_analysis with
  | none => if hero_position = some "BB" then "checked_bb" else "unknown"
  | some an =>
      match an.action_type with
      | some atype =>
          if atype = "open_raise" ∨ atype = "iso_raise" ∨ atype = "3bet" ∨
              atype = "4bet" ∨ atype = "5bet_plus" then "aggressor"
          else if atype = "call_vs_raise" ∨ atype = "call_vs_3bet_plus" ∨
              atype = "open_limp" ∨ atype = "overlimp" then "caller"
          else if atype = "fold_preflop" then "folder"
          else "unknown"
      | none =>
          if hero_position = some "BB" then "checked_bb" else "unknown"

/-- Board-texture record of _classify_turn_texture of turn_engine.py. -/
structure TurnTexture where
  turn_card_type : Option String
  overall_texture : Option String
  impact_on_equity : Option String
deriving DecidableEq, Repr

/-- Source function _classify_turn_texture of turn_engine.py.  Among
three flop suits at most one can repeat, so taking the first suit with
count at least two in list order agrees with the Python dict insertion
order. -/
def classify_turn_texture (board : List Card)
    (approx_category_from_flop : Option String) : TurnTexture :=
  match board with
  | c1 :: c2 :: c3 :: tc :: _ =>
      let flop_cards := [c1, c2, c3]
      let flop_ranks := flop_cards.filterMap parse_rank
      let flop_suits := flop_cards.filterMap parse_suit
      match parse_rank tc, parse_suit tc with
      | some turn_rank, some turn_suit =>
          if flop_ranks.length ≠ 3 then ⟨none, none, none⟩
          else
            let min_rank := (flop_ranks.min?).getD 0
            let max_rank := (flop_ranks.max?).getD 0
            let rank_span := max_rank - min_rank
            let max_suit_count := (((flop_suits.dedup).map
              (fun s => flop_suits.count s)).max?).getD 0
            let flop_texture :=
              if max_suit_count = 3 then "monotone"
              else if max_suit_count = 2 then "two_tone"
              else "rainbow"
            let straighty_flop := rank_span ≤ 4
            let tct0 :=
              if turn_rank ∈ flop_ranks then "paired_board"
              else if turn_rank > max_rank then "overcard"
              else if turn_rank < min_rank then "undercard"
              else "middle_card"
            let flush_suit := flop_suits.find?
              (fun s => flop_suits.count s ≥ 2)
            let flush_complete : Bool :=
              match flush_suit with
              | some fs => decide (turn_suit = fs ∧ flop_suits.count fs = 2)
              | none => false
            let flush_card : Bool :=
              match flush_suit with
              | some fs => decide (turn_suit = fs ∧ flop_suits.count fs = 3)
              | none => false
            let tct1 := if flush_complete then "flush_complete" else tct0
            let straight_card := straighty_flop ∧
              min_rank - 1 ≤ turn_rank ∧ turn_rank ≤ max_rank + 1
            let tct2 :=
              if straight_card ∧ tct1 ≠ "flush_complete" ∧
                  tct1 ≠ "paired_board" then "straight_card"
              else tct1
            let overall_texture :=
              if flop_texture = "monotone" then "monotone"
              else if flush_complete ∨ straight_card ∨
                  tct2 = "paired_board" ∨ tct2 = "overcard" ∨
                  tct2 = "flush_complete" then
                if straighty_flop ∨ flush_complete ∨ flush_card then "wet"
                else "semi_wet"
              else if straighty_flop ∨ flush_suit ≠ none then "semi_wet"
              else "dry"
            let cat := ((approx_category_from_flop).getD "").toLower
            let impact :=
              if cat = "set" ∨ cat = "trips" ∨ cat = "full_house" ∨
                  cat = "quads" then
                if tct2 = "paired_board" then "positive"
                else if flush_complete ∨ straight_card then "neutral"
                else "positive"
              else if cat = "two_pair" ∨ cat = "overpair" ∨ cat = "pair"
              then
                if tct2 = "flush_complete" ∨ tct2 = "straight_card" ∨
                    tct2 = "overcard" then "negative"
                else "neutral"
              else if cat = "high_card" ∨ cat = "" then
                if flush_complete ∨ straight_card ∨ tct2 = "overcard" ∨
                    tct2 = "paired_board" then "positive"
                else "neutral"
              else "neutral"
            ⟨some tct2, some overall_texture, some impact⟩
      | _, _ => ⟨none, none, none⟩
  | _ => ⟨none, none, none⟩

/-- Source function _estimate_turn_equity of turn_engine.py. -/
def estimate_turn_equity (approx_strength flop_equity : Option ℚ)
    (multiway hero_ip : Bool) (preflop_role action_type : String) :
    Option EquityEstimate :=
  match approx_strength, flop_equity with
  | none, none => none
  | _, _ =>
      let base_value := match approx_strength with
        | some s => s
        | none => (flop_equity).getD 0
      let b1 := if multiway then base_value - 0.05 else base_value
      let b2 := if hero_ip then b1 + 0.02 else b1 - 0.03
      let b3 :=
        if preflop_role = "aggressor" then b2 + 0.02
        else if preflop_role = "caller" then b2 - 0.01
        else b2
      let b4 :=
        if action_type = "bet_vs_check" ∨ action_type = "raise_vs_bet"
        then b3 + 0.02
        else if action_type = "check" then b3 - 0.01
        else b3
      some ⟨round3 (clamp b4 0.05 0.95), "simple_turn_model"⟩

/-- Hand sub-record of the turn decision dict. -/
structure TurnHandBlock where
  approx_category_from_flop : Option String
  approx_strength_score_from_flop : Option ℚ
  flop_equity_estimate : Option ℚ
  evolution : String
  evolution_detail : Option String
  board_texture : TurnTexture
deriving DecidableEq, Repr

/-- Turn decision dict built by evaluate_hero_turn_decision of
turn_engine.py (quality_comment and comment free text omitted). -/
structure TurnDecision where
  action_type : String
  action_kind : ActKind
  sizing : Sizing
  context : StreetContext
  hand : TurnHandBlock
  equity_estimate : Option EquityEstimate
  decision_quality : String
  ev_estimate : Option EvEstimate
deriving DecidableEq, Repr

/-- Source function evaluate_hero_turn_decision of turn_engine.py.

The final statement of the source function calls
compute_ev_estimate_v1 with the keyword arguments action_kind, sizing,
equity_estimate and facing_bet.  That callee is keyword-only and
accepts none of sizing, equity_estimate or facing_bet, and the call
omits the required street, pot_before, investment and
estimated_equity keywords, so Python raises TypeError at the call.
The keyword binding is modelled by py_kw_bind_ok; every statement
between the early returns and that call is a pure expression that
cannot raise, so the function either returns None early or raises.
The success branch of the binding check is decidably unreachable and
returns the assembled record with no EV estimate. -/
def evaluate_hero_turn_decision (actions : List Action)
    (hero_name : Option String) (hero_position : Option String)
    (hero_preflop_analysis : Option HeroPreflopAnalysis)
    (hero_flop_decision : Option FlopDecision) (board : List Card) :
    Except PyErr (Option TurnDecision) :=
  match hero_name with
  | none => .ok none
  | some hn =>
      if hn = "" then .ok none
      else
        let turn_actions := actions.filter (fun a => a.street = .turn)
        if turn_actions = [] then .ok none
        else
          match turn_actions.filter (fun a =>
              a.player = hn ∧ a.action ≠ .uncalled) with
          | [] => .ok none
          | first :: _ =>
              let idx_first := turn_actions.findIdx (fun a => a == first)
              let prior := turn_actions.take idx_first
              let facing_bet := prior.any (fun a =>
                a.action = .bet ∨ a.action = .raise)
              let action_type : String :=
                match first.action with
                | .bet => if facing_bet then "bet" else "bet_vs_check"
                | .check => "check"
                | .call => if facing_bet then "call_vs_bet" else "call"
                | .raise => if facing_bet then "raise_vs_bet" else "raise"
                | .fold => if facing_bet then "fold_vs_bet" else "fold"
                | k => actkind_str k
              let players_to_turn :=
                ((turn_actions.map (fun a => a.player)).dedup).length
              let last_other := (((turn_actions.enum.filter (fun p =>
                p.2.player ≠ hn)).map (fun p => p.1)).max?)
              let hero_ip := match last_other with
                | none => true
                | some m => idx_first > m
              let multiway := players_to_turn > 2
              let preflop_role := get_preflop_role hero_preflop_analysis
                hero_position
              let approx_category := hero_flop_decision.bind
                (fun d => d.hand.category)
              let approx_strength0 := hero_flop_decision.bind
                (fun d => d.hand.strength_score)
              let flop_equity := hero_flop_decision.bind
                (fun d => (d.equity_estimate).map
                  (fun e => e.estimated_equity))
              let approx_strength := match approx_strength0 with
                | some s => some s
                | none => flop_equity
              let board_texture := classify_turn_texture board
                approx_category
              let equity_estimate := estimate_turn_equity approx_strength
                flop_equity multiway hero_ip preflop_role action_type
              let turn_eq_value := (equity_estimate).map
                (fun e => e.estimated_equity)
              let evolution : String × Option String :=
                match flop_equity, turn_eq_value with
                | some fe, some te =>
                    let diff := te - fe
                    if diff > 0.08 then ("improved", some "equity_increased")
                    else if diff < -0.08 then
                      ("worsened", some "equity_decreased")
                    else ("same", some "equity_stable")
                | _, _ => ("unknown", none)
              let hand_block : TurnHandBlock :=
                ⟨approx_category, approx_strength, flop_equity,
                  evolution.1, evolution.2, board_texture⟩
              let strength_for_logic := match approx_strength with
                | some s => some s
                | none => turn_eq_value
              let decision_quality :=
                match strength_for_logic with
                | none => "unknown"
                | some s =>
                    let very_strong := s ≥ 0.75
                    let strong := s ≥ 0.65
                    let medium := 0.45 ≤ s ∧ s < 0.65
                    let weak := s ≤ 0.35
                    let impact := (match board_texture.impact_on_equity with
                      | none => "neutral"
                      | some i => if i = "" then "neutral" else i).toLower
                    if action_type = "bet_vs_check" ∨ action_type = "bet"
                    then
                      if very_strong ∨ strong then
                        if multiway ∧ impact = "negative" then "ok"
                        else "good"
                      else if medium then
                        if multiway ∧ impact = "negative" then "risky"
                        else "ok"
                      else if ¬multiway ∧ hero_ip ∧ impact ≠ "negative"
                      then "ok"
                      else "risky"
                    else if action_type = "check" then
                      if very_strong ∧ ¬multiway ∧ hero_ip ∧
                          impact ≠ "negative" then "risky"
                      else if weak then "good"
                      else "ok"
                    else if action_type = "call_vs_bet" ∨
                        action_type = "call" then
                      if strong ∨ very_strong then
                        if impact = "negative" ∧ multiway then "ok"
                        else "good"
                      else if weak then "risky"
                      else "ok"
                    else if action_type = "raise_vs_bet" ∨
                        action_type = "raise" then
                      if very_strong then
                        if impact = "negative" ∧ multiway then "ok"
                        else "good"
                      else if strong ∨ medium then
                        if impact = "negative" ∧ multiway then "risky"
                        else "ok"
                      else if ¬multiway ∧ hero_ip ∧ impact ≠ "negative"
                      then "ok"
                      else "risky"
                    else if action_type = "fold_vs_bet" ∨
                        action_type = "fold" then
                      if strong ∨ very_strong then
                        if impact = "negative" then "ok" else "bad"
                      else if weak then "good"
                      else "ok"
                    else "unknown"
              let sizing : Sizing :=
                ⟨first.amount, first.pot_before, first.pct_pot⟩
              if py_kw_bind_ok compute_ev_estimate_v1_kwnames
                  compute_ev_estimate_v1_required turn_ev_call_kwargs then
                .ok (some ⟨action_type, first.action, sizing,
                  ⟨players_to_turn, multiway, hero_ip, hero_position,
                    preflop_role⟩,
                  hand_block, equity_estimate, decision_quality, none⟩)
              else .error .typeError

-- ---------------------------------------------------------------------
-- decision_engine.py / hand_parser.py: preflop decision chain
-- ---------------------------------------------------------------------

/-- Math sub-record of compute_hero_preflop_followup of
hand_parser.py. -/
structure FollowupMath where
  pot_before : ℚ
  to_call : ℚ
  final_pot_if_call : ℚ
  pot_odds : Option ℚ
  required_equity : Option ℚ
  estimated_equity : Option ℚ
  ev_simple : Option ℚ
  model : String
deriving DecidableEq, Repr

/-- Record built by compute_hero_preflop_followup of hand_parser.py
(comment free text omitted). -/
structure PreflopFollowup where
  action_type : String
  action_kind : String
  villain_name : String
  math : FollowupMath
  decision_quality : String
deriving DecidableEq, Repr

/-- Source function compute_hero_preflop_followup of hand_parser.py. -/
def compute_hero_preflop_followup (actions : List Action)
    (hero_name : Option String)
    (hero_preflop_equity : Option PreflopEquityEstimate) :
    Option PreflopFollowup :=
  match hero_name, hero_preflop_equity with
  | some hn, some eqr =>
      if hn = "" then none
      else
        let preflop_actions := actions.filter (fun a =>
          a.street = .preflop)
        if preflop_actions = [] then none
        else
          let hero_pre := hero_voluntary_preflop preflop_actions hn
          if hero_pre.length < 2 then none
          else
            match hero_pre.getLast? with
            | none => none
            | some hero_last =>
                if hero_last.action ≠ .fold then none
                else
                  let idx_last := preflop_actions.findIdx
                    (fun a => a == hero_last)
                  let prior := preflop_actions.take idx_last
                  match (prior.filter (fun a =>
                      a.action = .bet ∨ a.action = .raise)).getLast? with
                  | none => none
                  | some last_agg =>
                      let villain_name := last_agg.player
                      let contributions := prior.foldl (fun m a =>
                        match a.amount with
                        | some q =>
                            map_set m a.player (map_get m a.player + q)
                        | none => m) []
                      let hero_invested := map_get contributions hn
                      let villain_invested :=
                        map_get contributions villain_name
                      let to_call :=
                        max (villain_invested - hero_invested) 0
                      match hero_last.pot_before with
                      | none => none
                      | some pb =>
                          let final_pot_if_call :=
                            if to_call > 0 then pb + to_call else pb
                          let pot_odds :=
                            if to_call > 0 ∧ final_pot_if_call > 0 then
                              some (to_call / final_pot_if_call)
                            else none
                          let required_equity := pot_odds
                          let ev_simple :=
                            if to_call > 0 ∧ final_pot_if_call > 0 then
                              some (eqr.estimated_equity_vs_unknown *
                                final_pot_if_call - to_call)
                            else none
                          let action_type :=
                            if (prior.filter (fun a =>
                                a.action = .raise)).length ≥ 2 then
                              "fold_vs_3bet_plus"
                            else "fold_vs_aggression"
                          let decision_quality :=
                            match required_equity with
                            | some req =>
                                let edge :=
                                  eqr.estimated_equity_vs_unknown - req
                                if edge ≤ -0.05 then "good"
                                else if edge < 0.05 then "close"
                                else "risky"
                            | none => "unknown"
                          some ⟨action_type, "fold", villain_name,
                            ⟨pb, to_call, final_pot_if_call, pot_odds,
                              required_equity,
                              some eqr.estimated_equity_vs_unknown,
                              ev_simple, "preflop_followup_model"⟩,
                            decision_quality⟩
  | _, _ => none

/-- Preflop decision dict built by evaluate_preflop_decision of
decision_engine.py (comment free text omitted; the
followup_vs_aggression key is attached by the caller only when a
followup exists, modelled by an optional field). -/
structure PreflopDecisionOut where
  action_type : Option String
  action_kind : Option String
  decision_quality : String
  math : PreflopDecisionMath
  range_discipline : Option RangeDiscipline
  ev_estimate : EvEstimate
  followup_vs_aggression : Option PreflopFollowup := none
deriving DecidableEq, Repr

/-- Source function evaluate_preflop_decision of decision_engine.py. -/
def evaluate_preflop_decision (action_type action_kind : Option String)
    (pot_before investment estimated_equity : Option ℚ)
    (hero_position mos_min_position hand_key : Option String)
    (was_first_in : Option Bool) (facing_raises : Option ℕ)
    (effective_stack_bb : Option ℚ) : PreflopDecisionOut :=
  let math := compute_preflop_math pot_before investment estimated_equity
    action_type hero_position facing_raises effective_stack_bb
  let base_quality := classify_decision_quality_base math
  let range_discipline := compute_range_discipline hero_position
    mos_min_position hand_key action_type was_first_in
  let final_quality := adjust_quality_by_range_discipline base_quality
    range_discipline
  let ak := match action_kind with
    | none => "unknown"
    | some s => if s = "" then "unknown" else s
  let ev_estimate := compute_ev_estimate_v1 "preflop" ak pot_before
    investment estimated_equity none none
  ⟨action_type, action_kind, final_quality, math, range_discipline,
    ev_estimate, none⟩

/-- Source function compute_hero_preflop_decision of hand_parser.py. -/
def compute_hero_preflop_decision (actions : List Action)
    (hero_name : Option String)
    (hero_preflop_analysis : Option HeroPreflopAnalysis)
    (hero_preflop_equity : Option PreflopEquityEstimate) :
    Option PreflopDecisionOut :=
  match hero_name, hero_preflop_analysis, hero_preflop_equity with
  | some hn, some an, some eqr =>
      if hn = "" then none
      else
        let preflop_actions := actions.filter (fun a =>
          a.street = .preflop)
        if preflop_actions = [] then none
        else
          match hero_voluntary_preflop preflop_actions hn with
          | [] => none
          | hero_first :: _ =>
              let action_kind : String :=
                if hero_first.action = .call ∨ hero_first.action = .raise
                    ∨ hero_first.action = .fold ∨
                    hero_first.action = .check ∨ hero_first.action = .bet
                then actkind_str hero_first.action
                else "other"
              let base := evaluate_preflop_decision an.action_type
                (some action_kind) hero_first.pot_before hero_first.amount
                (some eqr.estimated_equity_vs_unknown) an.hero_position
                eqr.mos_min_position (some eqr.hand_key) an.was_first_in
                (some an.facing_raises) an.effective_stack_bb
              let followup := compute_hero_preflop_followup actions
                (some hn) (some eqr)
              some { base with followup_vs_aggression := followup }
  | _, _, _ => none

-- ---------------------------------------------------------------------
-- hand_parser.py: parse_file_to_hands
-- ---------------------------------------------------------------------

/-- Two-character token of a card, as the text-level parsers emit it. -/
def card_token (c : Card) : String := String.mk [c.rank, c.suit]

/-- Per-hand output of the text-level parsing stage of
parse_file_to_hands of hand_parser.py (parse_hand_header,
parse_players, parse_hero, parse_actions, parse_board,
parse_total_pot_and_rake, parse_winners, parse_showdown applied to one
hand block).  The per-hand assembly from these components onward is
build_hand below; the claims under verification are all about that
assembly and the engines it calls. -/
structure HandInput where
  hand_id : Option String := none
  game_type : Option String := none
  currency : Option String := none
  small_blind : Option ℚ := none
  big_blind : Option ℚ := none
  date : Option String := none
  time : Option String := none
  table_name : Option String := none
  max_players : Option ℕ := none
  button_seat : Option ℕ := none
  players : List Player := []
  hero_name : Option String := none
  hero_cards : List Card := []
  actions : List Action := []
  board : List Card := []
  total_pot : Option ℚ := none
  rake : Option ℚ := none
  winners : List Winner := []
  showdown : List ShowdownEntry := []
  raw_text : String := ""

/-- Source dataclass Hand of hand_parser.py.  Note that the record has
fields for the preflop, flop and turn decisions only: there is no
river-decision field, and parse_file_to_hands never invokes the river
engine. -/
structure Hand where
  id : ℕ
  hand_id : Option String
  game_type : Option String
  currency : Option String
  small_blind : Option ℚ
  big_blind : Option ℚ
  date : Option String
  time : Option String
  table_name : Option String
  max_players : Option ℕ
  button_seat : Option ℕ
  players : List Player
  hero_name : Option String
  hero_cards : List Card
  hero_position : Option String
  hero_stack_bb : Option ℚ
  hero_preflop_analysis : Option HeroPreflopAnalysis
  hero_preflop_equity : Option PreflopEquityEstimate
  hero_preflop_decision : Option PreflopDecisionOut
  hero_flop_hand_category : Option String
  hero_flop_hand_detail : Option FlopHandDetail
  hero_flop_decision : Option FlopDecision
  hero_turn_decision : Option TurnDecision
  actions : List Action
  board : List Card
  pot_preflop : Option ℚ
  pot_flop : Option ℚ
  pot_turn : Option ℚ
  pot_river : Option ℚ
  total_pot : Option ℚ
  rake : Option ℚ
  winners : List Winner
  showdown : List ShowdownEntry
  raw_text : String

/-- Exception propagation of one Python statement: an exception from
the step aborts the enclosing computation, otherwise the rest runs on
its value. -/
def py_step {α β : Type} (E : Except PyErr α)
    (F : α → Except PyErr β) : Except PyErr β :=
  match E with
  | .error e => .error e
  | .ok x => F x

/-- Per-hand body of the loop of parse_file_to_hands of hand_parser.py
(lines 1535-1683), from the parsed components onward.  An exception
raised by any step aborts the whole batch; the two possible exceptions
are the ValueError from normalize_hand_key on malformed hero cards and
the TypeError from the turn-engine EV call. -/
def build_hand (idx : ℕ) (input : HandInput) : Except PyErr Hand :=
  let players := assign_positions input.players input.button_seat
    input.max_players
  let hero_name := input.hero_name
  let hero_cards := input.hero_cards
  let hp_hs : Option String × Option ℚ :=
    match hero_name, input.big_blind with
    | some hn, some b =>
        if b ≠ 0 ∧ b > 0 then
          match players.find? (fun p => p.name = hn) with
          | some p => (p.position, some (p.stack / b))
          | none => (none, none)
        else (none, none)
    | _, _ => (none, none)
  let hero_position := hp_hs.1
  let hero_stack_bb := hp_hs.2
  let effective_stack_bb := compute_effective_stack_bb players hero_name
    input.big_blind
  let ann := annotate_actions_with_pot_and_bb input.actions
    input.big_blind
  let actions := ann.1
  let pots := ann.2
  let hero_preflop_analysis := compute_hero_preflop_analysis actions
    players hero_name hero_position effective_stack_bb
  let villain_position : Option String :=
    match hero_preflop_analysis with
    | some an =>
        match an.villain_raiser with
        | some vr =>
            if vr = "" then none
            else
              match players.find? (fun p => p.name = vr) with
              | some p => p.position
              | none => none
        | none => none
    | none => none
  let equity_step : Except PyErr (Option PreflopEquityEstimate) :=
    if hero_cards.isEmpty then .ok none
    else
      match estimate_preflop_equity_vs_unknown_range
          (hero_cards.map card_token) hero_position villain_position with
      | some e => .ok (some e)
      | none => .error .valueError
  py_step equity_step (fun hero_preflop_equity =>
      let hero_preflop_decision :=
        if hero_preflop_analysis.isSome ∧ hero_preflop_equity.isSome then
          compute_hero_preflop_decision actions hero_name
            hero_preflop_analysis hero_preflop_equity
        else none
      let hero_has_flop_action :=
        match hero_name with
        | some hn => actions.any (fun a =>
            a.street = .flop ∧ a.player = hn)
        | none => false
      if !hero_has_flop_action then
        .ok ⟨idx, input.hand_id, input.game_type, input.currency,
          input.small_blind, input.big_blind, input.date, input.time,
          input.table_name, input.max_players, input.button_seat,
          players, hero_name, hero_cards, hero_position, hero_stack_bb,
          hero_preflop_analysis, hero_preflop_equity,
          hero_preflop_decision, none, none, none, none, actions,
          input.board, pots.preflop, pots.flop, pots.turn, pots.river,
          input.total_pot, input.rake, input.winners, input.showdown,
          input.raw_text⟩
      else
        let hero_flop_hand_category := evaluate_flop_hand_category
          hero_cards input.board
        let hero_flop_hand_detail := compute_hero_flop_detail hero_cards
          input.board hero_flop_hand_category
        let hero_flop_decision := compute_hero_flop_decision actions
          hero_name hero_position hero_preflop_analysis
          hero_flop_hand_category hero_flop_hand_detail
        py_step (evaluate_hero_turn_decision actions hero_name
            hero_position hero_preflop_analysis hero_flop_decision
            input.board) (fun hero_turn_decision =>
            .ok ⟨idx, input.hand_id, input.game_type, input.currency,
              input.small_blind, input.big_blind, input.date, input.time,
              input.table_name, input.max_players, input.button_seat,
              players, hero_name, hero_cards, hero_position,
              hero_stack_bb, hero_preflop_analysis, hero_preflop_equity,
              hero_preflop_decision, hero_flop_hand_category,
              hero_flop_hand_detail, hero_flop_decision,
              hero_turn_decision, actions, input.board, pots.preflop,
              pots.flop, pots.turn, pots.river, input.total_pot,
              input.rake, input.winners, input.showdown,
              input.raw_text⟩))

/-- Loop of parse_file_to_hands of hand_parser.py over the hand blocks,
with ids enumerated from 1; an exception from any hand aborts the whole
batch, exactly as an uncaught Python exception would. -/
def parse_hands_go : ℕ → List HandInput → Except PyErr (List Hand)
  | _, [] => .ok []
  | idx, i :: rest =>
      match build_hand idx i with
      | .error e => .error e
      | .ok h =>
          match parse_hands_go (idx + 1) rest with
          | .error e => .error e
          | .ok hs => .ok (h :: hs)

/-- Source function parse_file_to_hands of hand_parser.py, from the
split hand blocks onward. -/
def parse_hands (inputs : List HandInput) : Except PyErr (List Hand) :=
  parse_hands_go 1 inputs

-- ---------------------------------------------------------------------
-- Specification-side definitions (stated from the wording of the
-- claims, to be compared with the source-side definitions above)
-- ---------------------------------------------------------------------

/-- Claim C5 classification table, transcribed from the specification
wording: fold, call and raise classified by the number of prior raises
and prior callers. -/
def spec_preflop_action_type (kind : ActKind) (fr fc : ℕ) : String :=
  match kind with
  | .fold => "fold_preflop"
  | .call =>
      if fr = 0 then
        if fc = 0 then "open_limp" else "overlimp"
      else if fr = 1 then "call_vs_raise"
      else "call_vs_3bet_plus"
  | .raise =>
      if fr = 0 then
        if fc = 0 then "open_raise" else "iso_raise"
      else if fr = 1 then "3bet"
      else if fr = 2 then "4bet"
      else "5bet_plus"
  | _ => "unknown"

/-- Everything strictly before the first voluntary hero action in the
preflop action list (specification side: the voluntary actions exclude
blinds and uncalled returns). -/
def spec_prior (preflop_actions : List Action) (hn : String) :
    List Action :=
  preflop_actions.takeWhile (fun a =>
    ¬(a.player = hn ∧ a.action ≠ .uncalled ∧ a.action ≠ .post_sb ∧
      a.action ≠ .post_bb))

/-- Claim C9 rotation, transcribed from the specification wording:
starting at the button seat, visit seats in ascending seat-number
order, wrapping past the highest seat back to the lowest. -/
def spec_rotation (seats : List ℕ) (b : ℕ) : List ℕ :=
  b :: (seats.filter (fun s => b < s)).insertionSort (· ≤ ·) ++
    (seats.filter (fun s => s < b)).insertionSort (· ≤ ·)

/-- Presence of a per-street decision sub-record in an output Hand.
The Hand record carries preflop, flop and turn decision fields only;
there is no river field at all, so presence for the river street is
identically false. -/
def street_decision_present (h : Hand) : Street → Bool
  | .preflop => h.hero_preflop_decision.isSome
  | .flop => h.hero_flop_decision.isSome
  | .turn => h.hero_turn_decision.isSome
  | .river => false

/-- The hero has an own action (not an uncalled return) on the given
street of a hand input. -/
def hero_acted_on (input : HandInput) (s : Street) : Bool :=
  match input.hero_name with
  | some hn => input.actions.any (fun a =>
      a.street = s ∧ a.player = hn ∧ a.action ≠ .uncalled)
  | none => false

-- ---------------------------------------------------------------------
-- Concrete inputs used by witnesses and counterexamples
-- ---------------------------------------------------------------------

/-- Heads-up hand in which the hero acts on the flop and on the river
but the turn street has no actions at all: the hand builds
successfully, with a flop decision and no turn decision, and the Hand
record has nowhere to put a river decision. -/
def ex_c8 : HandInput :=
  { small_blind := some 1, big_blind := some 2, max_players := some 2,
    button_seat := some 1,
    players := [⟨1, "V", 100, none⟩, ⟨2, "H", 100, none⟩],
    hero_name := some "H",
    hero_cards := [⟨'A', 'h'⟩, ⟨'K', 'd'⟩],
    board := [⟨'2', 'c'⟩, ⟨'7', 'd'⟩, ⟨'9', 's'⟩, ⟨'Q', 'h'⟩,
      ⟨'3', 'c'⟩],
    actions :=
      [⟨.preflop, "V", .post_sb, some 1, none, none, none, none⟩,
       ⟨.preflop, "H", .post_bb, some 2, none, none, none, none⟩,
       ⟨.preflop, "V", .call, some 1, none, none, none, none⟩,
       ⟨.preflop, "H", .check, none, none, none, none, none⟩,
       ⟨.flop, "H", .check, none, none, none, none, none⟩,
       ⟨.flop, "V", .check, none, none, none, none, none⟩,
       ⟨.river, "H", .check, none, none, none, none, none⟩,
       ⟨.river, "V", .check, none, none, none, none, none⟩] }

/-- Heads-up hand in which the hero acts on the flop and on the turn:
processing reaches the turn-engine EV call and the batch fails. -/
def ex_c1 : HandInput :=
  { small_blind := some 1, big_blind := some 2, max_players := some 2,
    button_seat := some 1,
    players := [⟨1, "V", 100, none⟩, ⟨2, "H", 100, none⟩],
    hero_name := some "H",
    hero_cards := [⟨'A', 'h'⟩, ⟨'K', 'd'⟩],
    board := [⟨'2', 'c'⟩, ⟨'7', 'd'⟩, ⟨'9', 's'⟩, ⟨'Q', 'h'⟩],
    actions :=
      [⟨.preflop, "V", .post_sb, some 1, none, none, none, none⟩,
       ⟨.preflop, "H", .post_bb, some 2, none, none, none, none⟩,
       ⟨.preflop, "V", .call, some 1, none, none, none, none⟩,
       ⟨.preflop, "H", .check, none, none, none, none, none⟩,
       ⟨.flop, "H", .check, none, none, none, none, none⟩,
       ⟨.flop, "V", .check, none, none, none, none, none⟩,
       ⟨.turn, "V", .check, none, none, none, none, none⟩,
       ⟨.turn, "H", .check, none, none, none, none, none⟩] }

/-- Missed-value scenario of claim C7: the hero flops a set of sevens,
the turn pot is exactly 100, and the hero checks the turn as the last
of two players (heads-up, in position). -/
def ex_c7 : HandInput :=
  { small_blind := some 1, big_blind := some 2, max_players := some 2,
    button_seat := some 1,
    players := [⟨1, "V", 1000, none⟩, ⟨2, "H", 1000, none⟩],
    hero_name := some "H",
    hero_cards := [⟨'7', 'h'⟩, ⟨'7', 'd'⟩],
    board := [⟨'7', 's'⟩, ⟨'2', 'c'⟩, ⟨'9', 'd'⟩, ⟨'4', 'h'⟩],
    actions :=
      [⟨.preflop, "V", .post_sb, some 1, none, none, none, none⟩,
       ⟨.preflop, "H", .post_bb, some 2, none, none, none, none⟩,
       ⟨.preflop, "V", .raise, some 25, none, none, none, none⟩,
       ⟨.preflop, "H", .call, some 23, none, none, none, none⟩,
       ⟨.flop, "V", .bet, some 25, none, none, none, none⟩,
       ⟨.flop, "H", .call, some 25, none, none, none, none⟩,
       ⟨.turn, "V", .check, none, none, none, none, none⟩,
       ⟨.turn, "H", .check, none, none, none, none, none⟩] }

/-- Annotated actions of the claim C7 scenario. -/
def ex_c7_ann : List Action :=
  (annotate_actions_with_pot_and_bb ex_c7.actions (some 2)).1

/-- Single uncalled return with no money in the pot: the annotator
drives the running pot to -30. -/
def ex_c4_neg : List Action :=
  [⟨.preflop, "V", .uncalled, some 30, none, none, none, none⟩]

/-- Raise of 50 followed by an uncalled return of 30 (the concrete
example quoted by claim C4). -/
def ex_c4_ok : List Action :=
  [⟨.preflop, "V", .raise, some 50, none, none, none, none⟩,
   ⟨.preflop, "V", .uncalled, some 30, none, none, none, none⟩]

/-- Heads-up preflop in which the hero raises as the only voluntary
actor (the end-to-end scenario of claim C5). -/
def ex_c5 : List Action :=
  [⟨.preflop, "H", .post_sb, some 1, none, none, none, none⟩,
   ⟨.preflop, "V", .post_bb, some 2, none, none, none, none⟩,
   ⟨.preflop, "H", .raise, some 4, none, none, none, none⟩,
   ⟨.preflop, "V", .fold, none, none, none, none, none⟩]

/-- Six players in seats 1..6 with the button at seat 4 (the concrete
rotation example of claim C9). -/
def ex_c9 : List Player :=
  [⟨1, "p1", 100, none⟩, ⟨2, "p2", 100, none⟩, ⟨3, "p3", 100, none⟩,
   ⟨4, "p4", 100, none⟩, ⟨5, "p5", 100, none⟩, ⟨6, "p6", 100, none⟩]

-- ---------------------------------------------------------------------
-- Helper lemmas
-- ---------------------------------------------------------------------

theorem clamp01_eq_self {x : ℚ} (h0 : 0 ≤ x) (h1 : x ≤ 1) :
    clamp01 x = x := by
  unfold clamp01
  rw [if_neg (by linarith), if_neg (by linarith)]

theorem estimate_fold_equity_nonneg (at_ hp : Option String)
    (fr : Option ℕ) (eff : Option ℚ) :
    (0.05 : ℚ) ≤ estimate_fold_equity at_ hp fr eff :=
  le_max_left _ _

theorem estimate_fold_equity_le (at_ hp : Option String)
    (fr : Option ℕ) (eff : Option ℚ) :
    estimate_fold_equity at_ hp fr eff ≤ 0.75 :=
  max_le (by norm_num) (min_le_left _ _)

-- ---------------------------------------------------------------------
-- Claim C2
-- ---------------------------------------------------------------------

/-- C2 counterexample: on pot_before = 1, investment = 1,
equity = 1/2 and a call-type action, compute_preflop_math gives
EV = 1/2 while the shared ev_call_check of ev_tools gives EV = 0, so
the two EV models are not the same. -/
theorem c2_counterexample :
    (compute_preflop_math (some 1) (some 1) (some (1/2))
      (some "call_vs_raise") none none none).ev_simple = some (1/2) ∧
    ev_call_check 1 1 (1/2) = 0 ∧ ((1 : ℚ)/2) ≠ 0 := by
  refine ⟨?_, ?_, by norm_num⟩
  · norm_num [compute_preflop_math, safe_positive]
    rw [if_neg (by decide)]
  · norm_num [ev_call_check, clamp01]

/-- C2 as amended: for pot_before > 0, investment > 0 and equity in
[0,1], compute_preflop_math does not coincide with the shared ev_tools
functions; it exceeds them by exactly equity * investment on a
call-type action and by (1 - FE) * equity * investment on a raise-type
action (with the same heuristic fold equity FE and the same default
final pot).  The two models agree only when equity * investment = 0. -/
theorem c2_preflop_math_vs_ev_tools (pb inv eqv : ℚ)
    (action_type hero_position : Option String) (fr : Option ℕ)
    (eff : Option ℚ) (hpb : 0 < pb) (hinv : 0 < inv) (h0 : 0 ≤ eqv)
    (h1 : eqv ≤ 1) :
    (¬(action_type = some "open_raise" ∨ action_type = some "iso_raise" ∨
        action_type = some "3bet" ∨ action_type = some "4bet" ∨
        action_type = some "5bet_plus") →
      (compute_preflop_math (some pb) (some inv) (some eqv) action_type
        hero_position fr eff).ev_simple =
        some (ev_call_check pb inv eqv + eqv * inv)) ∧
    ((action_type = some "open_raise" ∨ action_type = some "iso_raise" ∨
        action_type = some "3bet" ∨ action_type = some "4bet" ∨
        action_type = some "5bet_plus") →
      (compute_preflop_math (some pb) (some inv) (some eqv) action_type
        hero_position fr eff).ev_simple =
        some (ev_bet_raise pb inv eqv
            (some (estimate_fold_equity action_type hero_position fr eff))
            none +
          (1 - estimate_fold_equity action_type hero_position fr eff) *
            eqv * inv)) := by
  have hsp : safe_positive (some pb) = some pb := by
    simp only [safe_positive]
    rw [if_neg (not_le.mpr hpb)]
  have hsi : safe_positive (some inv) = some inv := by
    simp only [safe_positive]
    rw [if_neg (not_le.mpr hinv)]
  have hce : clamp01 eqv = eqv := clamp01_eq_self h0 h1
  have hfe0 : (0 : ℚ) ≤ estimate_fold_equity action_type hero_position
      fr eff := le_trans (by norm_num)
    (estimate_fold_equity_nonneg action_type hero_position fr eff)
  have hfe1 : estimate_fold_equity action_type hero_position fr eff ≤ 1 :=
    le_trans (estimate_fold_equity_le action_type hero_position fr eff)
      (by norm_num)
  constructor
  · intro hno
    simp only [compute_preflop_math, hsp, hsi, if_neg hno,
      ev_call_check, hce]
    congr 1
    ring
  · intro hyes
    simp only [compute_preflop_math, hsp, hsi, if_pos hyes,
      ev_bet_raise, hce, clamp01_eq_self hfe0 hfe1]
    congr 1
    ring

/-- C2 witness: the amended statement applied at pot_before = 1,
investment = 1, equity = 1/2 for both the call-type and the raise-type
action. -/
theorem c2_witness :
    ((compute_preflop_math (some 1) (some 1) (some (1/2))
        (some "call_vs_raise") none none none).ev_simple =
      some (ev_call_check 1 1 (1/2) + (1/2) * 1)) ∧
    ((compute_preflop_math (some 1) (some 1) (some (1/2))
        (some "open_raise") (some "CO") none none).ev_simple =
      some (ev_bet_raise 1 1 (1/2)
          (some (estimate_fold_equity (some "open_raise") (some "CO")
            none none)) none +
        (1 - estimate_fold_equity (some "open_raise") (some "CO") none
          none) * (1/2) * 1)) :=
  ⟨(c2_preflop_math_vs_ev_tools 1 1 (1/2) (some "call_vs_raise") none
      none none (by norm_num) (by norm_num) (by norm_num)
      (by norm_num)).1 (by simp),
   (c2_preflop_math_vs_ev_tools 1 1 (1/2) (some "open_raise")
      (some "CO") none none (by norm_num) (by norm_num) (by norm_num)
      (by norm_num)).2 (by simp)⟩

-- ---------------------------------------------------------------------
-- Claim C6
-- ---------------------------------------------------------------------

/-- C6: preflop range discipline.  For an open or limp action
(open_raise, open_limp, iso_raise, overlimp): a hand key in no range
gives error_type too_loose_open regardless of position; an in-range
hand opened from a position at or after the minimum position of its
range gives no error; an in-range hand opened earlier than that
minimum gives too_early_position_open.  For a first-in fold of an
in-range hand from a position at or after the minimum,
too_tight_fold.  Concretely, 72o is in no range and TT is EP-eligible,
so 72o opened anywhere is too_loose_open, TT opened from MP is no
error, and TT folded first-in from CO is too_tight_fold. -/
theorem c6_range_discipline :
    (∀ (hp hk : Option String) (a : String) (wfi : Option Bool),
      (a = "open_raise" ∨ a = "open_limp" ∨ a = "iso_raise" ∨
        a = "overlimp") →
      compute_range_discipline hp none hk (some a) wfi =
        some ⟨false, some false, hp, none, some "too_loose_open"⟩) ∧
    (∀ (hps : String) (hk : Option String) (a m : String)
        (wfi : Option Bool) (mi hi : ℕ),
      (a = "open_raise" ∨ a = "open_limp" ∨ a = "iso_raise" ∨
        a = "overlimp") →
      MOS_POSITION_ORDER m = some mi → POSITION_ORDER hps = some hi →
      mi ≤ hi →
      compute_range_discipline (some hps) (some m) hk (some a) wfi =
        some ⟨true, some true, some hps, some m, none⟩) ∧
    (∀ (hps : String) (hk : Option String) (a m : String)
        (wfi : Option Bool) (mi hi : ℕ),
      (a = "open_raise" ∨ a = "open_limp" ∨ a = "iso_raise" ∨
        a = "overlimp") →
      MOS_POSITION_ORDER m = some mi → POSITION_ORDER hps = some hi →
      hi < mi →
      compute_range_discipline (some hps) (some m) hk (some a) wfi =
        some ⟨true, some false, some hps, some m,
          some "too_early_position_open"⟩) ∧
    (∀ (hps : String) (hk : Option String) (m : String) (mi hi : ℕ),
      MOS_POSITION_ORDER m = some mi → POSITION_ORDER hps = some hi →
      mi ≤ hi →
      compute_range_discipline (some hps) (some m) hk
          (some "fold_preflop") (some true) =
        some ⟨true, some true, some hps, some m,
          some "too_tight_fold"⟩) ∧
    (get_mos_min_position "72o" = none ∧
      get_mos_min_position "TT" = some "EP") := by
  refine ⟨?_, ?_, ?_, ?_, by decide, by decide⟩
  · intro hp hk a wfi ha
    rcases ha with h | h | h | h <;> subst h <;>
      simp [compute_range_discipline]
  · intro hps hk a m wfi mi hi ha hm hhi hge
    rcases ha with h | h | h <;> try subst h
    all_goals try rcases h with h | h
    all_goals try subst h
    all_goals
      simp only [compute_range_discipline]
    all_goals rw [if_neg (by simp)]
    all_goals rw [if_pos (by simp)]
    all_goals simp only [hm, hhi]
    all_goals rw [if_pos (by omega)]
  · intro hps hk a m wfi mi hi ha hm hhi hlt
    rcases ha with h | h | h <;> try subst h
    all_goals try rcases h with h | h
    all_goals try subst h
    all_goals
      simp only [compute_range_discipline]
    all_goals rw [if_neg (by simp)]
    all_goals rw [if_pos (by simp)]
    all_goals simp only [hm, hhi]
    all_goals rw [if_neg (by omega)]
  · intro hps hk m mi hi hm hhi hge
    simp only [compute_range_discipline]
    rw [if_pos (by simp)]
    simp only [hm, hhi]
    rw [if_pos (by omega)]

/-- C6 witness: the general statement applied at the concrete examples
of the claim (72o opened from UTG, TT opened from MP, TT folded
first-in from CO). -/
theorem c6_witness :
    (compute_range_discipline (some "UTG") none (some "72o")
        (some "open_raise") (some false) =
      some ⟨false, some false, some "UTG", none,
        some "too_loose_open"⟩) ∧
    (compute_range_discipline (some "MP") (some "EP") (some "TT")
        (some "open_raise") (some true) =
      some ⟨true, some true, some "MP", some "EP", none⟩) ∧
    (compute_range_discipline (some "CO") (some "EP") (some "TT")
        (some "fold_preflop") (some true) =
      some ⟨true, some true, some "CO", some "EP",
        some "too_tight_fold"⟩) :=
  ⟨c6_range_discipline.1 (some "UTG") (some "72o") "open_raise"
      (some false) (Or.inl rfl),
   c6_range_discipline.2.1 "MP" (some "TT") "open_raise" "EP"
      (some true) 0 1 (Or.inl rfl) (by decide) (by decide)
      (by norm_num),
   c6_range_discipline.2.2.2.1 "CO" (some "TT") "EP" 0 3 (by decide)
      (by decide) (by norm_num)⟩

-- ---------------------------------------------------------------------
-- Claim C10
-- ---------------------------------------------------------------------

theorem rank_to_index_cases {c : Char} {i : ℕ}
    (h : rank_to_index c = some i) :
    (c, i) ∈ [('2', 0), ('3', 1), ('4', 2), ('5', 3), ('6', 4),
      ('7', 5), ('8', 6), ('9', 7), ('T', 8), ('J', 9), ('Q', 10),
      ('K', 11), ('A', 12)] := by
  by_cases h0 : c = '2'
  · subst h0
    simp [rank_to_index] at h
    subst h
    decide
  by_cases h1 : c = '3'
  · subst h1
    simp [rank_to_index] at h
    subst h
    decide
  by_cases h2 : c = '4'
  · subst h2
    simp [rank_to_index] at h
    subst h
    decide
  by_cases h3 : c = '5'
  · subst h3
    simp [rank_to_index] at h
    subst h
    decide
  by_cases h4 : c = '6'
  · subst h4
    simp [rank_to_index] at h
    subst h
    decide
  by_cases h5 : c = '7'
  · subst h5
    simp [rank_to_index] at h
    subst h
    decide
  by_cases h6 : c = '8'
  · subst h6
    simp [rank_to_index] at h
    subst h
    decide
  by_cases h7 : c = '9'
  · subst h7
    simp [rank_to_index] at h
    subst h
    decide
  by_cases h8 : c = 'T'
  · subst h8
    simp [rank_to_index] at h
    subst h
    decide
  by_cases h9 : c = 'J'
  · subst h9
    simp [rank_to_index] at h
    subst h
    decide
  by_cases h10 : c = 'Q'
  · subst h10
    simp [rank_to_index] at h
    subst h
    decide
  by_cases h11 : c = 'K'
  · subst h11
    simp [rank_to_index] at h
    subst h
    decide
  by_cases h12 : c = 'A'
  · subst h12
    simp [rank_to_index] at h
    subst h
    decide
  simp [rank_to_index, h0, h1, h2, h3, h4, h5, h6, h7, h8, h9, h10, h11, h12] at h

theorem rank_to_index_inj {c₁ c₂ : Char} {i : ℕ}
    (h1 : rank_to_index c₁ = some i) (h2 : rank_to_index c₂ = some i) :
    c₁ = c₂ := by
  have key : ∀ p ∈ [('2', 0), ('3', 1), ('4', 2), ('5', 3), ('6', 4),
      ('7', 5), ('8', 6), ('9', 7), ('T', 8), ('J', 9), ('Q', 10),
      ('K', 11), ('A', 12)], ∀ q ∈ [('2', 0), ('3', 1), ('4', 2),
      ('5', 3), ('6', 4), ('7', 5), ('8', 6), ('9', 7), ('T', 8),
      ('J', 9), ('Q', 10), ('K', 11), ('A', 12)],
      Prod.snd (α := Char) p = q.snd → p.fst = q.fst := by decide
  exact key _ (rank_to_index_cases h1) _ (rank_to_index_cases h2) rfl

/-- C10: the canonical hand key is symmetric under input card order;
equal ranks yield the two-character pair key, and unequal ranks yield
the higher rank first, the lower rank second and an s/o suffix for
suited/offsuit. -/
theorem c10_canonical_hand_key (c1 c2 : String) (r1 s1 r2 s2 : Char)
    (h1 : c1.data = [r1, s1]) (h2 : c2.data = [r2, s2])
    (hr1 : (rank_to_index r1.toUpper).isSome)
    (hr2 : (rank_to_index r2.toUpper).isSome) :
    normalize_hand_key [c1, c2] = normalize_hand_key [c2, c1] ∧
    (r1.toUpper = r2.toUpper → normalize_hand_key [c1, c2] =
      some (String.mk [r1.toUpper, r2.toUpper])) ∧
    (r1.toUpper ≠ r2.toUpper → ∃ chi clo ih il,
      rank_to_index chi = some ih ∧ rank_to_index clo = some il ∧
      il < ih ∧
      ((chi = r1.toUpper ∧ clo = r2.toUpper) ∨
        (chi = r2.toUpper ∧ clo = r1.toUpper)) ∧
      normalize_hand_key [c1, c2] = some (String.mk [chi, clo,
        if s1.toLower = s2.toLower then 's' else 'o'])) := by
  obtain ⟨i1, hi1⟩ := Option.isSome_iff_exists.mp hr1
  obtain ⟨i2, hi2⟩ := Option.isSome_iff_exists.mp hr2
  have hgr1 : get_rank c1 = some r1.toUpper := by simp [get_rank, h1]
  have hgs1 : get_suit c1 = some s1.toLower := by simp [get_suit, h1]
  have hgr2 : get_rank c2 = some r2.toUpper := by simp [get_rank, h2]
  have hgs2 : get_suit c2 = some s2.toLower := by simp [get_suit, h2]
  by_cases heq : r1.toUpper = r2.toUpper
  · refine ⟨?_, fun _ => ?_, fun hne => absurd heq hne⟩
    · simp [normalize_hand_key, hgr1, hgs1, hgr2, hgs2, hi1, hi2, heq]
    · simp [normalize_hand_key, hgr1, hgs1, hgr2, hgs2, hi1, hi2, heq]
  · have hne12 : i1 ≠ i2 := fun h => heq (rank_to_index_inj hi1 (h ▸ hi2))
    by_cases hsu : s1.toLower = s2.toLower
    · rcases Nat.lt_or_ge i1 i2 with hlt | hge
      · refine ⟨?_, fun h => absurd h heq, fun _ =>
          ⟨r2.toUpper, r1.toUpper, i2, i1, hi2, hi1, hlt,
            Or.inr ⟨rfl, rfl⟩, ?_⟩⟩ <;>
          simp [normalize_hand_key, hgr1, hgs1, hgr2, hgs2, hi1, hi2,
            heq, Ne.symm heq, hsu, Nat.not_lt.mpr (Nat.le_of_lt hlt),
            hlt]
      · have hgt : i2 < i1 := Nat.lt_of_le_of_ne hge (Ne.symm hne12)
        refine ⟨?_, fun h => absurd h heq, fun _ =>
          ⟨r1.toUpper, r2.toUpper, i1, i2, hi1, hi2, hgt,
            Or.inl ⟨rfl, rfl⟩, ?_⟩⟩ <;>
          simp [normalize_hand_key, hgr1, hgs1, hgr2, hgs2, hi1, hi2,
            heq, Ne.symm heq, hsu, Nat.not_lt.mpr (Nat.le_of_lt hgt),
            hgt]
    · rcases Nat.lt_or_ge i1 i2 with hlt | hge
      · refine ⟨?_, fun h => absurd h heq, fun _ =>
          ⟨r2.toUpper, r1.toUpper, i2, i1, hi2, hi1, hlt,
            Or.inr ⟨rfl, rfl⟩, ?_⟩⟩ <;>
          simp [normalize_hand_key, hgr1, hgs1, hgr2, hgs2, hi1, hi2,
            heq, Ne.symm heq, hsu, Ne.symm hsu,
            Nat.not_lt.mpr (Nat.le_of_lt hlt), hlt]
      · have hgt : i2 < i1 := Nat.lt_of_le_of_ne hge (Ne.symm hne12)
        refine ⟨?_, fun h => absurd h heq, fun _ =>
          ⟨r1.toUpper, r2.toUpper, i1, i2, hi1, hi2, hgt,
            Or.inl ⟨rfl, rfl⟩, ?_⟩⟩ <;>
          simp [normalize_hand_key, hgr1, hgs1, hgr2, hgs2, hi1, hi2,
            heq, Ne.symm heq, hsu, Ne.symm hsu,
            Nat.not_lt.mpr (Nat.le_of_lt hgt), hgt]

/-- C10 witness: the symmetry applied to the concrete tokens Ah and
Kd, both orders giving the key AKo. -/
theorem c10_witness :
    normalize_hand_key ["Ah", "Kd"] = normalize_hand_key ["Kd", "Ah"] ∧
    normalize_hand_key ["Ah", "Kd"] = some "AKo" :=
  ⟨(c10_canonical_hand_key "Ah" "Kd" 'A' 'h' 'K' 'd' rfl rfl
      (by decide) (by decide)).1, by decide⟩

-- ---------------------------------------------------------------------
-- Pot annotation lemmas, claims C3 and C4
-- ---------------------------------------------------------------------

theorem annotate_one_pot_before (bb : Option ℚ) (a : Action)
    (pot potA : ℚ) : (annotate_one bb a pot potA).pot_before = some pot :=
  rfl

theorem annotate_one_pot_after (bb : Option ℚ) (a : Action)
    (pot potA : ℚ) : (annotate_one bb a pot potA).pot_after = some potA :=
  rfl

theorem annotate_one_action (bb : Option ℚ) (a : Action) (pot potA : ℚ) :
    (annotate_one bb a pot potA).action = a.action := rfl

theorem annotate_one_amount (bb : Option ℚ) (a : Action) (pot potA : ℚ) :
    (annotate_one bb a pot potA).amount = a.amount := rfl

theorem annotate_loop_get_zero (bb : Option ℚ) (acts : List Action)
    (pot : ℚ) (cur : Street) (com : List (String × ℚ)) (pots : Pots)
    (h : 0 < ((annotate_loop bb acts pot cur com pots).1).length) :
    (((annotate_loop bb acts pot cur com pots).1).get ⟨0, h⟩).pot_before
      = some pot := by
  cases acts with
  | nil => simp [annotate_loop] at h
  | cons a rest =>
      simp only [annotate_loop, List.get_cons_zero]
      rfl

/-- C3: pot continuity.  In any list annotated by the pot annotator,
every action after the first carries pot_before equal to the pot_after
of the action immediately before it, whatever the streets involved.
Since the chronological action list places the first action of each
street immediately after the last action of the previous street, the
pot_before recorded on the first action of each street equals the
final pot_after recorded on the last action of the previous street,
for every street the hand reaches. -/
theorem c3_pot_continuity (bb : Option ℚ) (acts : List Action) (i : ℕ)
    (h : i + 1 < ((annotate_actions_with_pot_and_bb acts bb).1).length) :
    (((annotate_actions_with_pot_and_bb acts bb).1).get
        ⟨i + 1, h⟩).pot_before =
      (((annotate_actions_with_pot_and_bb acts bb).1).get
        ⟨i, Nat.lt_of_succ_lt h⟩).pot_after := by
  have main : ∀ (as : List Action) (pot : ℚ) (cur : Street)
      (com : List (String × ℚ)) (pots : Pots) (i : ℕ)
      (h : i + 1 < ((annotate_loop bb as pot cur com pots).1).length),
      (((annotate_loop bb as pot cur com pots).1).get
          ⟨i + 1, h⟩).pot_before =
        (((annotate_loop bb as pot cur com pots).1).get
          ⟨i, Nat.lt_of_succ_lt h⟩).pot_after := by
    intro as
    induction as with
    | nil =>
        intro pot cur com pots i h
        simp [annotate_loop] at h
    | cons a rest ih =>
        intro pot cur com pots i h
        simp only [annotate_loop] at h ⊢
        cases i with
        | zero =>
            simp only [List.get_cons_succ]
            exact annotate_loop_get_zero bb rest _ _ _ _ _
        | succ j =>
            simp only [List.get_cons_succ]
            exact ih _ _ _ _ j _
  unfold annotate_actions_with_pot_and_bb
  cases acts with
  | nil => simp [annotate_actions_with_pot_and_bb] at h
  | cons a rest => exact main (a :: rest) 0 a.street [] {} i h

theorem pot_step_mono (a : Action) (pot : ℚ) (com : List (String × ℚ))
    (hamt : ∀ q, a.amount = some q → 0 ≤ q)
    (hne : a.action ≠ .uncalled) : pot ≤ (pot_step a pot com).1 := by
  cases ham : a.amount with
  | none => cases ha : a.action <;> simp [pot_step, ha, ham]
  | some amt =>
      have hq : 0 ≤ amt := hamt amt ham
      cases ha : a.action with
      | post_sb => simp [pot_step, ha, ham]; linarith
      | post_bb => simp [pot_step, ha, ham]; linarith
      | bet => simp [pot_step, ha, ham]; linarith
      | call => simp [pot_step, ha, ham]; linarith
      | raise =>
          simp [pot_step, ha, ham]
          split <;> linarith
      | check => simp [pot_step, ha, ham]
      | fold => simp [pot_step, ha, ham]
      | uncalled => exact absurd ha hne

theorem pot_step_uncalled (a : Action) (pot : ℚ)
    (com : List (String × ℚ)) (hu : a.action = .uncalled) (q : ℚ)
    (ham : a.amount = some q) : (pot_step a pot com).1 = pot - q := by
  simp [pot_step, hu, ham]

theorem pot_step_uncalled_none (a : Action) (pot : ℚ)
    (com : List (String × ℚ)) (hu : a.action = .uncalled)
    (ham : a.amount = none) : (pot_step a pot com).1 = pot := by
  simp [pot_step, hu, ham]

theorem pot_step_nonneg (a : Action) (pot : ℚ)
    (com : List (String × ℚ)) (hamt : ∀ q, a.amount = some q → 0 ≤ q)
    (hpot : 0 ≤ pot)
    (hbound : a.action = .uncalled → ∀ q, a.amount = some q → q ≤ pot) :
    0 ≤ (pot_step a pot com).1 := by
  by_cases hu : a.action = .uncalled
  · cases ham : a.amount with
    | none => rw [pot_step_uncalled_none a pot com hu ham]; exact hpot
    | some q =>
        rw [pot_step_uncalled a pot com hu q ham]
        have := hbound hu q ham
        linarith
  · linarith [pot_step_mono a pot com hamt hu]

theorem annotate_loop_pot_spec (bb : Option ℚ) :
    ∀ (acts : List Action) (pot : ℚ) (cur : Street)
      (com : List (String × ℚ)) (pots : Pots),
      0 ≤ pot →
      (∀ a ∈ acts, ∀ q, a.amount = some q → 0 ≤ q) →
      (∀ x ∈ (annotate_loop bb acts pot cur com pots).1,
        x.action = .uncalled → ∀ q p, x.amount = some q →
          x.pot_before = some p → q ≤ p) →
      ∀ i (hi : i < ((annotate_loop bb acts pot cur com pots).1).length),
        ∃ p q',
          (((annotate_loop bb acts pot cur com pots).1).get
            ⟨i, hi⟩).pot_before = some p ∧
          (((annotate_loop bb acts pot cur com pots).1).get
            ⟨i, hi⟩).pot_after = some q' ∧
          0 ≤ p ∧ 0 ≤ q' ∧
          ((((annotate_loop bb acts pot cur com pots).1).get
            ⟨i, hi⟩).action ≠ .uncalled → p ≤ q') ∧
          (∀ q, (((annotate_loop bb acts pot cur com pots).1).get
              ⟨i, hi⟩).action = .uncalled →
            (((annotate_loop bb acts pot cur com pots).1).get
              ⟨i, hi⟩).amount = some q → q' = p - q) := by
  intro acts
  induction acts with
  | nil =>
      intro pot cur com pots hpot hamt hunc i hi
      simp [annotate_loop] at hi
  | cons a rest ih =>
      intro pot cur com pots hpot hamt hunc i hi
      have hamt_head : ∀ q, a.amount = some q → 0 ≤ q :=
        fun q hq => hamt a (List.mem_cons_self a rest) q hq
      have hamt_tail : ∀ a' ∈ rest, ∀ q, a'.amount = some q → 0 ≤ q :=
        fun a' ha' q hq => hamt a' (List.mem_cons_of_mem a ha') q hq
      simp only [annotate_loop] at hunc hi ⊢
      have hbound : a.action = .uncalled →
          ∀ q, a.amount = some q → q ≤ pot := by
        intro hu q hq
        exact hunc
          (annotate_one bb a pot
            (pot_step a pot (street_switch a cur com pots pot).2.1).1)
          (List.mem_cons_self _ _) hu q pot hq rfl
      have hstep0 : 0 ≤
          (pot_step a pot (street_switch a cur com pots pot).2.1).1 :=
        pot_step_nonneg a pot _ hamt_head hpot hbound
      cases i with
      | zero =>
          refine ⟨pot,
            (pot_step a pot (street_switch a cur com pots pot).2.1).1,
            rfl, rfl, hpot, hstep0, ?_, ?_⟩
          · intro hne
            exact pot_step_mono a pot _ hamt_head hne
          · intro q hu hq
            exact pot_step_uncalled a pot _ hu q hq
      | succ j =>
          have hunc_tail : ∀ x ∈ (annotate_loop bb rest
              (pot_step a pot (street_switch a cur com pots pot).2.1).1
              (street_switch a cur com pots pot).1
              (pot_step a pot (street_switch a cur com pots pot).2.1).2
              (street_switch a cur com pots pot).2.2).1,
              x.action = .uncalled → ∀ q p, x.amount = some q →
                x.pot_before = some p → q ≤ p :=
            fun x hx => hunc x (List.mem_cons_of_mem _ hx)
          simp only [List.get_cons_succ]
          exact ih _ _ _ _ hstep0 hamt_tail hunc_tail j
            (Nat.lt_of_succ_lt_succ hi)

/-- C4 as amended: for action lists whose amounts are non-negative (as
all parsed amounts are) the running pot is monotonically non-decreasing
across consecutive actions except at uncalled actions, and an uncalled
action with amount A reduces the running pot by exactly A; provided
additionally that every uncalled amount is at most the running pot at
that point (true of the raise-50 / uncalled-30 example the claim
quotes), the pot never becomes negative.  Without that bound the pot
can go negative, see the counterexample. -/
theorem c4_pot_monotone (bb : Option ℚ) (acts : List Action)
    (hamt : ∀ a ∈ acts, ∀ q, a.amount = some q → 0 ≤ q)
    (hunc : ∀ x ∈ (annotate_actions_with_pot_and_bb acts bb).1,
      x.action = .uncalled → ∀ q p, x.amount = some q →
        x.pot_before = some p → q ≤ p) :
    ∀ i (hi : i < ((annotate_actions_with_pot_and_bb acts bb).1).length)
      (p q' : ℚ),
      (((annotate_actions_with_pot_and_bb acts bb).1).get
        ⟨i, hi⟩).pot_before = some p →
      (((annotate_actions_with_pot_and_bb acts bb).1).get
        ⟨i, hi⟩).pot_after = some q' →
      0 ≤ p ∧ 0 ≤ q' ∧
      ((((annotate_actions_with_pot_and_bb acts bb).1).get
        ⟨i, hi⟩).action ≠ .uncalled → p ≤ q') ∧
      (∀ q, (((annotate_actions_with_pot_and_bb acts bb).1).get
          ⟨i, hi⟩).action = .uncalled →
        (((annotate_actions_with_pot_and_bb acts bb).1).get
          ⟨i, hi⟩).amount = some q → q' = p - q) := by
  intro i hi p q' hp hq
  cases acts with
  | nil => simp [annotate_actions_with_pot_and_bb] at hi
  | cons a rest =>
      obtain ⟨p0, q0, hp0, hq0, hp0n, hq0n, hmono, hexact⟩ :=
        annotate_loop_pot_spec bb (a :: rest) 0 a.street [] {}
          (le_refl 0) hamt hunc i hi
      have hp0' : ((annotate_actions_with_pot_and_bb (a :: rest) bb).1.get
          ⟨i, hi⟩).pot_before = some p0 := hp0
      have hq0' : ((annotate_actions_with_pot_and_bb (a :: rest) bb).1.get
          ⟨i, hi⟩).pot_after = some q0 := hq0
      have hmono' : ((annotate_actions_with_pot_and_bb (a :: rest)
          bb).1.get ⟨i, hi⟩).action ≠ ActKind.uncalled → p0 ≤ q0 := hmono
      have hexact' : ∀ q, ((annotate_actions_with_pot_and_bb (a :: rest)
          bb).1.get ⟨i, hi⟩).action = ActKind.uncalled →
          ((annotate_actions_with_pot_and_bb (a :: rest) bb).1.get
            ⟨i, hi⟩).amount = some q → q0 = p0 - q := hexact
      rw [hp] at hp0'
      rw [hq] at hq0'
      have hpp : p = p0 := Option.some.inj hp0'
      have hqq : q' = q0 := Option.some.inj hq0'
      subst hpp
      subst hqq
      exact ⟨hp0n, hq0n, hmono', hexact'⟩

/-- C4 counterexample: on the action list consisting of a single
uncalled return of 30, the annotator records pot_after = -30, so the
running pot does become negative on some action lists. -/
theorem c4_counterexample :
    ((annotate_actions_with_pot_and_bb ex_c4_neg none).1.map
      (fun a => (a.pot_before, a.pot_after))) =
        [(some 0, some (-30))] ∧ ((-30 : ℚ) < 0) := by
  constructor
  · norm_num +decide [annotate_actions_with_pot_and_bb, ex_c4_neg,
      annotate_loop, pot_step, street_switch, annotate_one]
  · norm_num

/-- C3 witness: pot continuity applied at the flop boundary of the
concrete annotated hand ex_c7 (index 4 is the first flop action, index
3 the last preflop action). -/
theorem c3_witness :
    (((annotate_actions_with_pot_and_bb ex_c7.actions (some 2)).1).get
        ⟨3 + 1, by decide⟩).pot_before =
      (((annotate_actions_with_pot_and_bb ex_c7.actions (some 2)).1).get
        ⟨3, by decide⟩).pot_after :=
  c3_pot_continuity (some 2) ex_c7.actions 3 (by decide)

/-- C4 witness: the amended statement applied to the raise-50 /
uncalled-30 example quoted by the claim; the uncalled return reduces
the pot from 50 by exactly 30 and the pot stays non-negative. -/
theorem c4_witness :
    ((annotate_actions_with_pot_and_bb ex_c4_ok none).1.map
      (fun a => (a.pot_before, a.pot_after))) =
      [(some 0, some 50), (some 50, some 20)] ∧
    (0 : ℚ) ≤ 50 ∧ (0 : ℚ) ≤ 20 ∧ (20 : ℚ) = 50 - 30 := by
  have hlist : (annotate_actions_with_pot_and_bb ex_c4_ok none).1 =
      [⟨.preflop, "V", .raise, some 50, none, some 0, some 50, none⟩,
       ⟨.preflop, "V", .uncalled, some 30, none, some 50, some 20,
        some (3/5)⟩] := by
    norm_num +decide [annotate_actions_with_pot_and_bb, ex_c4_ok,
      annotate_loop, pot_step, street_switch, annotate_one, map_get,
      map_set]
  have hamt : ∀ a ∈ ex_c4_ok, ∀ q, a.amount = some q → 0 ≤ q := by
    decide
  have hunc : ∀ x ∈ (annotate_actions_with_pot_and_bb ex_c4_ok none).1,
      x.action = .uncalled → ∀ q p, x.amount = some q →
        x.pot_before = some p → q ≤ p := by
    intro x hx hu q p hq hp
    rw [hlist] at hx
    simp only [List.mem_cons, List.not_mem_nil, or_false] at hx
    rcases hx with hx | hx <;> subst hx
    · simp at hu
    · simp only at hq hp
      have hq30 : q = 30 := by simpa using hq.symm
      have hp50 : p = 50 := by simpa using hp.symm
      subst hq30
      subst hp50
      norm_num
  have h1 : 1 <
      ((annotate_actions_with_pot_and_bb ex_c4_ok none).1).length := by
    rw [hlist]
    norm_num
  have hp1 : (((annotate_actions_with_pot_and_bb ex_c4_ok none).1).get
      ⟨1, h1⟩).pot_before = some 50 := by
    rw [List.get_of_eq hlist]
    rfl
  have hq1 : (((annotate_actions_with_pot_and_bb ex_c4_ok none).1).get
      ⟨1, h1⟩).pot_after = some 20 := by
    rw [List.get_of_eq hlist]
    rfl
  have hu1 : (((annotate_actions_with_pot_and_bb ex_c4_ok none).1).get
      ⟨1, h1⟩).action = .uncalled := by
    rw [List.get_of_eq hlist]
    rfl
  have ham1 : (((annotate_actions_with_pot_and_bb ex_c4_ok none).1).get
      ⟨1, h1⟩).amount = some 30 := by
    rw [List.get_of_eq hlist]
    rfl
  obtain ⟨h0p, h0q, hmono, hex⟩ :=
    c4_pot_monotone none ex_c4_ok hamt hunc 1 h1 50 20 hp1 hq1
  refine ⟨by rw [hlist]; rfl, h0p, h0q, hex 30 hu1 ham1⟩

-- ---------------------------------------------------------------------
-- Claim C5
-- ---------------------------------------------------------------------

/-- The Python list.index call on the head of a filtered list lands on
the first element satisfying the filter, so taking everything before it
is the same as takeWhile with the negated predicate. -/
theorem take_findIdx_of_filter_head {α : Type} [DecidableEq α]
    (p : α → Bool) (l : List α) (hf : α) (rest : List α)
    (h : l.filter p = hf :: rest) :
    l.take (l.findIdx (fun a => a == hf)) =
      l.takeWhile (fun a => !p a) := by
  induction l with
  | nil => simp at h
  | cons x xs ih =>
      by_cases hx : p x = true
      · rw [List.filter_cons_of_pos hx] at h
        injection h with h1 h2
        subst h1
        rw [List.findIdx_cons]
        simp [hx]
      · rw [List.filter_cons_of_neg hx] at h
        have hmem : hf ∈ List.filter p xs := by
          rw [h]
          exact List.mem_cons_self _ _
        have hpf : p hf = true := (List.mem_filter.mp hmem).2
        have hxf : (x == hf) = false := by
          rw [beq_eq_false_iff_ne]
          intro hxeq
          rw [hxeq] at hx
          exact hx hpf
        rw [List.findIdx_cons, hxf]
        rw [List.takeWhile_cons_of_pos (by simp [hx])]
        simp only [cond_false]
        rw [List.take_succ_cons, ih h]

/-- Claim C5: when the hero has a voluntary preflop action (first one
hf, of kind fold, call or raise), compute_hero_preflop_analysis
returns an analysis whose action_type matches the specification's
classification table applied to hf's kind and the computed
facing_raises and facing_callers; was_first_in is true exactly when no
earlier preflop action is a bet, raise or call; facing_raises counts
the raises strictly before the hero's first voluntary action; and with
no raise in front, facing_callers counts the earlier calls. -/
theorem c5_preflop_classification (actions : List Action)
    (players : List Player) (hn : String) (hpos : Option String)
    (eff : Option ℚ) (hne : hn ≠ "") (hf : Action) (hrest : List Action)
    (hfilter : hero_voluntary_preflop
      (actions.filter (fun a => a.street = .preflop)) hn = hf :: hrest)
    (hkind : hf.action = .fold ∨ hf.action = .call ∨ hf.action = .raise) :
    ∃ A, compute_hero_preflop_analysis actions players (some hn) hpos eff
        = some A ∧
      A.action_type = some (spec_preflop_action_type hf.action
        A.facing_raises A.facing_callers) ∧
      (A.was_first_in = some true ↔
        ∀ a ∈ spec_prior (actions.filter (fun a => a.street = .preflop)) hn,
          ¬(a.action = .bet ∨ a.action = .raise ∨ a.action = .call)) ∧
      A.facing_raises = ((spec_prior
          (actions.filter (fun a => a.street = .preflop)) hn).filter
        (fun a => a.action = .raise)).length ∧
      (A.facing_raises = 0 → A.facing_callers = ((spec_prior
          (actions.filter (fun a => a.street = .preflop)) hn).filter
        (fun a => a.action = .call)).length) := by
  set pre := actions.filter (fun a => a.street = Street.preflop) with hpre
  have hpre_ne : ¬(pre = []) := by
    intro h0
    rw [h0] at hfilter
    simp [hero_voluntary_preflop] at hfilter
  have hfilter' : pre.filter (fun a => decide (a.player = hn ∧
      a.action ≠ ActKind.uncalled ∧ a.action ≠ ActKind.post_sb ∧
      a.action ≠ ActKind.post_bb)) = hf :: hrest := hfilter
  have hprior : pre.take (pre.findIdx (fun a => a == hf)) =
      spec_prior pre hn := by
    rw [take_findIdx_of_filter_head _ pre hf hrest hfilter']
    unfold spec_prior
    congr 1
    funext a
    simp [decide_not]
  have hcomp : compute_hero_preflop_analysis actions players (some hn)
      hpos eff = some (analysis_from_prior (spec_prior pre hn) hf hpos
        eff) := by
    simp only [compute_hero_preflop_analysis]
    rw [← hpre]
    rw [if_neg hne, if_neg hpre_ne, hfilter]
    exact congrArg (fun P => some (analysis_from_prior P hf hpos eff))
      hprior
  refine ⟨_, hcomp, ?_, ?_, ?_, ?_⟩
  · rcases hkind with hk | hk | hk <;>
      simp only [analysis_from_prior, spec_preflop_action_type, hk]
  · simp [analysis_from_prior, List.length_eq_zero,
      List.filter_eq_nil_iff]
  · rfl
  · intro h0
    simp only [analysis_from_prior] at h0 ⊢
    have hnil : (spec_prior pre hn).filter
        (fun a => a.action = ActKind.raise) = [] :=
      List.length_eq_zero.mp h0
    simp [hnil]

/-- Claim C5 witness: the heads-up first-in raise scenario. Hero "H"
posts the small blind and then raises first in; the analysis is
defined, classifies the action as open_raise with was_first_in true
and zero raises and callers faced. -/
theorem c5_witness :
    hero_voluntary_preflop (ex_c5.filter (fun a =>
        a.street = .preflop)) "H" =
      [⟨.preflop, "H", .raise, some 4, none, none, none, none⟩] ∧
    compute_hero_preflop_analysis ex_c5 [] (some "H") (some "BTN") none =
      some ⟨some "open_raise", some true, 0, 0, none, some "BTN", none⟩ ∧
    (∃ A, compute_hero_preflop_analysis ex_c5 [] (some "H") (some "BTN")
        none = some A ∧
      A.action_type = some (spec_preflop_action_type
        (⟨.preflop, "H", .raise, some 4, none, none, none, none⟩ :
          Action).action A.facing_raises A.facing_callers) ∧
      (A.was_first_in = some true ↔
        ∀ a ∈ spec_prior (ex_c5.filter (fun a => a.street = .preflop))
            "H",
          ¬(a.action = .bet ∨ a.action = .raise ∨ a.action = .call)) ∧
      A.facing_raises = ((spec_prior
          (ex_c5.filter (fun a => a.street = .preflop)) "H").filter
        (fun a => a.action = .raise)).length ∧
      (A.facing_raises = 0 → A.facing_callers = ((spec_prior
          (ex_c5.filter (fun a => a.street = .preflop)) "H").filter
        (fun a => a.action = .call)).length)) :=
  ⟨by decide, by decide,
    c5_preflop_classification ex_c5 [] "H" (some "BTN") none (by decide)
      ⟨.preflop, "H", .raise, some 4, none, none, none, none⟩ []
      (by decide) (by decide)⟩



theorem pairwise_lt_filter_gt (ss : List ℕ) (cur : ℕ) (pre post : List ℕ)
    (hs : ss.Pairwise (· < ·)) (he : ss = pre ++ cur :: post) :
    ss.filter (fun s => cur < s) = post := by
  subst he
  rw [List.pairwise_append] at hs
  obtain ⟨hpre, hcons, hcross⟩ := hs
  rw [List.pairwise_cons] at hcons
  obtain ⟨hpost, _⟩ := hcons
  rw [List.filter_append]
  have h1 : pre.filter (fun s => cur < s) = [] := by
    rw [List.filter_eq_nil_iff]
    intro x hx
    have := hcross x hx cur (List.mem_cons_self _ _)
    simp
    omega
  have h2 : (cur :: post).filter (fun s => cur < s) = post := by
    rw [List.filter_cons_of_neg (by simp)]
    rw [List.filter_eq_self]
    intro a ha
    simpa using hpost a ha
  rw [h1, h2, List.nil_append]

theorem cyclic_next_mid (ss : List ℕ) (cur x : ℕ) (pre post : List ℕ)
    (hs : ss.Pairwise (· < ·)) (he : ss = pre ++ cur :: x :: post) :
    cyclic_next ss cur = x := by
  unfold cyclic_next
  rw [pairwise_lt_filter_gt ss cur pre (x :: post) hs he]

theorem cyclic_next_last (ss : List ℕ) (cur : ℕ) (pre : List ℕ)
    (hs : ss.Pairwise (· < ·)) (he : ss = pre ++ [cur]) :
    cyclic_next ss cur = ss.headD 0 := by
  unfold cyclic_next
  rw [pairwise_lt_filter_gt ss cur pre [] hs he]

theorem rotation_loop_phase2 (ss : List ℕ) (hs : ss.Pairwise (· < ·)) :
    ∀ (l2 P l1 : List ℕ) (cur : ℕ) (fuel : ℕ),
      ss = l1 ++ cur :: l2 ++ P → l2.length + 1 ≤ fuel →
      rotation_loop ss fuel (P ++ l1 ++ [cur]) cur = P ++ l1 ++ cur :: l2 := by
  intro l2
  induction l2 with
  | nil =>
      intro P l1 cur fuel he hfuel
      obtain ⟨f, rfl⟩ : ∃ f, fuel = f + 1 := ⟨fuel - 1, by omega⟩
      rw [rotation_loop]
      rw [if_neg (by simp [he]; omega)]
  | cons x l2' ih =>
      intro P l1 cur fuel he hfuel
      obtain ⟨f, rfl⟩ : ∃ f, fuel = f + 1 := ⟨fuel - 1, by omega⟩
      have hnd : ss.Nodup := hs.imp (fun h => Nat.ne_of_lt h)
      rw [rotation_loop]
      rw [if_pos (by simp [he]; omega)]
      have hnext : cyclic_next ss cur = x :=
        cyclic_next_mid ss cur x l1 (l2' ++ P) hs (by simp [he])
      rw [hnext]
      have hxnotin : ¬(x ∈ P ++ l1 ++ [cur]) := by
        have hp := hs
        rw [he] at hp
        rw [List.pairwise_append] at hp
        obtain ⟨hleft, _, hcross⟩ := hp
        rw [List.pairwise_append] at hleft
        obtain ⟨_, hcxs, hcross2⟩ := hleft
        rw [List.pairwise_cons] at hcxs
        obtain ⟨hcur, _⟩ := hcxs
        intro hmem
        simp only [List.mem_append, List.mem_cons,
          List.not_mem_nil, or_false] at hmem
        rcases hmem with (hxP | hxl1) | hxc
        · exact absurd (hcross x (by simp) x hxP) (lt_irrefl x)
        · exact absurd (hcross2 x hxl1 x (by simp)) (lt_irrefl x)
        · exact absurd (hcur x (by simp)) (by rw [hxc]; exact lt_irrefl cur)
      rw [if_neg hxnotin]
      have hfuel' : l2'.length + 1 ≤ f := by
        simp only [List.length_cons] at hfuel
        omega
      have := ih P (l1 ++ [cur]) x f (by simp [he]) hfuel'
      simp only [List.append_assoc] at this ⊢
      simpa using this

theorem rotation_loop_phase1 (ss : List ℕ) (hs : ss.Pairwise (· < ·)) :
    ∀ (h2 lo l1 : List ℕ) (cur : ℕ) (fuel : ℕ),
      ss = lo ++ l1 ++ cur :: h2 → h2.length + lo.length + 1 ≤ fuel →
      rotation_loop ss fuel (l1 ++ [cur]) cur = l1 ++ cur :: (h2 ++ lo) := by
  intro h2
  induction h2 with
  | nil =>
      intro lo l1 cur fuel he hfuel
      obtain ⟨f, rfl⟩ : ∃ f, fuel = f + 1 := ⟨fuel - 1, by omega⟩
      match lo with
      | [] =>
          rw [rotation_loop]
          rw [if_neg (by simp [he])]
          simp
      | y :: lo' =>
          rw [rotation_loop]
          rw [if_pos (by simp [he]; omega)]
          have hnext : cyclic_next ss cur = ss.headD 0 :=
            cyclic_next_last ss cur ((y :: lo') ++ l1) hs (by simp [he])
          have hhead : ss.headD 0 = y := by rw [he]; rfl
          rw [hnext, hhead]
          have hynotin : ¬(y ∈ l1 ++ [cur]) := by
            have hp := hs
            rw [he, List.pairwise_append] at hp
            obtain ⟨hleft, _, hcross⟩ := hp
            rw [List.pairwise_append] at hleft
            obtain ⟨_, _, hcross2⟩ := hleft
            intro hmem
            rcases List.mem_append.mp hmem with hyl1 | hyc
            · exact absurd (hcross2 y (by simp) y hyl1) (lt_irrefl y)
            · have hyc' : y = cur := by simpa using hyc
              exact absurd (hcross y (by simp) cur (by simp))
                (by rw [hyc']; exact lt_irrefl cur)
          rw [if_neg hynotin]
          have hfuel' : lo'.length + 1 ≤ f := by
            simp only [List.length_cons, List.length_nil] at hfuel
            omega
          have := rotation_loop_phase2 ss hs lo' (l1 ++ [cur]) [] y f
            (by simp [he]) hfuel'
          simp only [List.append_assoc, List.nil_append] at this ⊢
          simpa using this
  | cons x h2' ih =>
      intro lo l1 cur fuel he hfuel
      obtain ⟨f, rfl⟩ : ∃ f, fuel = f + 1 := ⟨fuel - 1, by omega⟩
      rw [rotation_loop]
      rw [if_pos (by simp [he]; omega)]
      have hnext : cyclic_next ss cur = x :=
        cyclic_next_mid ss cur x (lo ++ l1) h2' hs (by simp [he])
      rw [hnext]
      have hxnotin : ¬(x ∈ l1 ++ [cur]) := by
        have hp := hs
        rw [he, List.pairwise_append] at hp
        obtain ⟨_, hrest, hcross⟩ := hp
        rw [List.pairwise_cons] at hrest
        obtain ⟨hcur, _⟩ := hrest
        intro hmem
        rcases List.mem_append.mp hmem with hxl1 | hxc
        · exact absurd (hcross x (List.mem_append_right _ hxl1) x (by simp))
            (lt_irrefl x)
        · have hxc' : x = cur := by simpa using hxc
          exact absurd (hcur x (by simp))
            (by rw [hxc']; exact lt_irrefl cur)
      rw [if_neg hxnotin]
      have hfuel' : h2'.length + lo.length + 1 ≤ f := by
        simp only [List.length_cons] at hfuel
        omega
      have := ih lo (l1 ++ [cur]) x f (by simp [he]) hfuel'
      simp only [List.append_assoc] at this ⊢
      simpa using this

theorem sorted_split_at_mem (ss : List ℕ) (b : ℕ)
    (hs : ss.Pairwise (· < ·)) (hb : b ∈ ss) :
    ss = ss.filter (fun s => s < b) ++ b :: ss.filter (fun s => b < s) := by
  induction ss with
  | nil => cases hb
  | cons x xs ih =>
      obtain ⟨hx, hs'⟩ := List.pairwise_cons.mp hs
      rcases List.mem_cons.mp hb with hbx | hbxs
      · subst hbx
        rw [List.filter_cons_of_neg (by simp)]
        rw [List.filter_cons_of_neg (by simp)]
        have h1 : xs.filter (fun s => s < b) = [] := by
          rw [List.filter_eq_nil_iff]
          intro y hy
          have := hx y hy
          simp
          omega
        have h2 : xs.filter (fun s => b < s) = xs := by
          rw [List.filter_eq_self]
          intro y hy
          simpa using hx y hy
        rw [h1, h2, List.nil_append]
      · have hxb : x < b := hx b hbxs
        rw [List.filter_cons_of_pos (by simpa using hxb)]
        rw [List.filter_cons_of_neg (by simp; omega)]
        rw [List.cons_append]
        exact congrArg (x :: ·) (ih hs' hbxs)

theorem rotation_loop_sorted (ss : List ℕ) (b : ℕ)
    (hs : ss.Pairwise (· < ·)) (hb : b ∈ ss) :
    rotation_loop ss ss.length [b] b =
      b :: (ss.filter (fun s => b < s) ++ ss.filter (fun s => s < b)) := by
  have hsplit := sorted_split_at_mem ss b hs hb
  have hlen : (ss.filter (fun s => b < s)).length +
      (ss.filter (fun s => s < b)).length + 1 ≤ ss.length := by
    have := congrArg List.length hsplit
    simp only [List.length_append, List.length_cons] at this
    omega
  have := rotation_loop_phase1 ss hs (ss.filter (fun s => b < s))
    (ss.filter (fun s => s < b)) [] b ss.length
    (by simpa using hsplit) hlen
  simpa using this

theorem insertionSort_pairwise_lt (l : List ℕ) (hnd : l.Nodup) :
    (l.insertionSort (· ≤ ·)).Pairwise (· < ·) := by
  have hsorted : (l.insertionSort (· ≤ ·)).Pairwise (· ≤ ·) :=
    List.sorted_insertionSort _ l
  have hnd' : (l.insertionSort (· ≤ ·)).Nodup :=
    ((List.perm_insertionSort _ l).nodup_iff).mpr hnd
  exact (hsorted.and hnd').imp (fun h => lt_of_le_of_ne h.1 h.2)

theorem filter_insertionSort (l : List ℕ) (p : ℕ → Bool) :
    (l.insertionSort (· ≤ ·)).filter p =
      (l.filter p).insertionSort (· ≤ ·) := by
  have hperm : List.Perm ((l.insertionSort (· ≤ ·)).filter p)
      ((l.filter p).insertionSort (· ≤ ·)) :=
    ((List.perm_insertionSort _ l).filter p).trans
      (List.perm_insertionSort _ (l.filter p)).symm
  have h1 : ((l.insertionSort (· ≤ ·)).filter p).Sorted (· ≤ ·) :=
    (List.sorted_insertionSort _ l).filter p
  have h2 : ((l.filter p).insertionSort (· ≤ ·)).Sorted (· ≤ ·) :=
    List.sorted_insertionSort _ (l.filter p)
  exact List.eq_of_perm_of_sorted hperm h1 h2

theorem find_of_unique {α : Type} (l : List α) (q : α → Bool) (p : α)
    (hp : p ∈ l) (hq : q p = true)
    (huniq : ∀ r ∈ l, q r = true → r = p) :
    l.find? q = some p := by
  induction l with
  | nil => cases hp
  | cons x xs ih =>
      by_cases hx : q x = true
      · rw [List.find?_cons_of_pos _ hx]
        rw [huniq x (List.mem_cons_self _ _) hx]
      · rw [List.find?_cons_of_neg _ hx]
        rcases List.mem_cons.mp hp with hpx | hpxs
        · rw [hpx] at hq
          exact absurd hq hx
        · exact ih hpxs (fun r hr h => huniq r (List.mem_cons_of_mem _ hr) h)

theorem zip_take_self {α β : Type} (l1 : List α) (l2 : List β) :
    l1.zip (l2.take l1.length) = l1.zip l2 := by
  induction l1 generalizing l2 with
  | nil => simp
  | cons x xs ih =>
      cases l2 with
      | nil => simp
      | cons y ys => simp [List.zip_cons_cons, ih]

set_option maxHeartbeats 1000000 in
/-- Claim C9: with distinct seats and the button seat present,
the assign_positions seat walk equals the specification rotation
(button first, then ascending seats with wraparound), its length is
the player count, and every player is relabelled by looking up their
seat in the rotation zipped with the fixed position-label table for
the table size. -/
theorem c9_position_rotation (players : List Player) (b : ℕ)
    (hnd : (players.map (fun p => p.seat)).Nodup)
    (hb : b ∈ players.map (fun p => p.seat)) :
    rotation_loop
        (((players.map (fun p => p.seat)).dedup).insertionSort (· ≤ ·))
        ((((players.map (fun p => p.seat)).dedup).insertionSort
          (· ≤ ·)).length) [b] b
      = spec_rotation (players.map (fun p => p.seat)) b ∧
    (spec_rotation (players.map (fun p => p.seat)) b).length =
      players.length ∧
    assign_positions players (some b) none =
      players.map (fun p =>
        match ((spec_rotation (players.map (fun r => r.seat)) b).zip
            (pos_table players.length)).lookup p.seat with
        | some nm => { p with position := some nm }
        | none => p) := by
  set seats := players.map (fun p => p.seat) with hseats
  have hded : seats.dedup = seats := List.dedup_eq_self.mpr hnd
  have hlt : (seats.insertionSort (· ≤ ·)).Pairwise (· < ·) :=
    insertionSort_pairwise_lt seats hnd
  have hbss : b ∈ seats.insertionSort (· ≤ ·) :=
    ((List.perm_insertionSort _ seats).mem_iff).mpr hb
  have hrot : rotation_loop (seats.insertionSort (· ≤ ·))
      (seats.insertionSort (· ≤ ·)).length [b] b =
      spec_rotation seats b := by
    rw [rotation_loop_sorted _ b hlt hbss]
    unfold spec_rotation
    rw [filter_insertionSort seats (fun s => decide (b < s))]
    rw [filter_insertionSort seats (fun s => decide (s < b))]
    simp
  have hsplit := sorted_split_at_mem (seats.insertionSort (· ≤ ·)) b
    hlt hbss
  have hlen2 : (spec_rotation seats b).length = players.length := by
    have hc := congrArg List.length hsplit
    have hperm1 : ((seats.insertionSort (· ≤ ·))).length =
        seats.length := (List.perm_insertionSort _ seats).length_eq
    unfold spec_rotation
    rw [filter_insertionSort seats (fun s => decide (b < s))] at *
    rw [filter_insertionSort seats (fun s => decide (s < b))] at *
    simp only [List.length_append, List.length_cons] at hc ⊢
    rw [hperm1] at hc
    have hseatlen : seats.length = players.length := by
      rw [hseats, List.length_map]
    omega
  refine ⟨by rw [hded]; exact hrot, hlen2, ?_⟩
  have hplayers_ne : players ≠ [] := by
    intro h0
    rw [hseats, h0] at hb
    simp at hb
  simp only [assign_positions]
  rw [if_neg hplayers_ne]
  rw [← hseats, hded]
  rw [if_pos hb]
  rw [hrot]
  rw [zip_take_self]
  rw [hlen2]
  apply List.map_congr_left
  intro p hp
  have hfind : players.reverse.find? (fun r => decide (r.seat = p.seat)) =
      some p := by
    apply find_of_unique
    · exact List.mem_reverse.mpr hp
    · simp
    · intro r hr hqr
      have hr' : r ∈ players := List.mem_reverse.mp hr
      have hqr' : r.seat = p.seat := of_decide_eq_true hqr
      exact List.inj_on_of_nodup_map hnd hr' hp hqr'
  rw [hfind]
  simp only [Option.getD_some]

/-- Claim C9 witness: six players in seats 1..6 with the button at
seat 4; the rotation is [4,5,6,1,2,3], the 6-max label table is
[BTN,SB,BB,UTG,MP,CO], and assign_positions labels the players
accordingly. -/
theorem c9_witness :
    (ex_c9.map (fun p => p.seat)).Nodup ∧
    spec_rotation (ex_c9.map (fun p => p.seat)) 4 = [4, 5, 6, 1, 2, 3] ∧
    pos_table 6 = ["BTN", "SB", "BB", "UTG", "MP", "CO"] ∧
    assign_positions ex_c9 (some 4) none =
      [⟨1, "p1", 100, some "UTG"⟩, ⟨2, "p2", 100, some "MP"⟩,
       ⟨3, "p3", 100, some "CO"⟩, ⟨4, "p4", 100, some "BTN"⟩,
       ⟨5, "p5", 100, some "SB"⟩, ⟨6, "p6", 100, some "BB"⟩] ∧
    (rotation_loop
        (((ex_c9.map (fun p => p.seat)).dedup).insertionSort (· ≤ ·))
        ((((ex_c9.map (fun p => p.seat)).dedup).insertionSort
          (· ≤ ·)).length) [4] 4
      = spec_rotation (ex_c9.map (fun p => p.seat)) 4 ∧
    (spec_rotation (ex_c9.map (fun p => p.seat)) 4).length =
      ex_c9.length ∧
    assign_positions ex_c9 (some 4) none =
      ex_c9.map (fun p =>
        match ((spec_rotation (ex_c9.map (fun r => r.seat)) 4).zip
            (pos_table ex_c9.length)).lookup p.seat with
        | some nm => { p with position := some nm }
        | none => p)) :=
  ⟨by decide, by decide, by decide, by decide,
    c9_position_rotation ex_c9 4 (by decide) (by decide)⟩



theorem evaluate_hero_turn_decision_typeError (actions : List Action)
    (hn : String) (hne : hn ≠ "")
    (hfe : (actions.filter (fun a => a.street = .turn)).filter
      (fun a => a.player = hn ∧ a.action ≠ .uncalled) ≠ []) :
    ∀ (hpos : Option String) (hpa : Option HeroPreflopAnalysis)
      (hfd : Option FlopDecision) (board : List Card),
      evaluate_hero_turn_decision actions (some hn) hpos hpa hfd board =
        Except.error PyErr.typeError := by
  intro hpos hpa hfd board
  obtain ⟨first, rest, hcons⟩ := List.exists_cons_of_ne_nil hfe
  have hta : actions.filter (fun a => a.street = Street.turn) ≠ [] := by
    intro h0
    rw [h0] at hcons
    simp at hcons
  simp only [evaluate_hero_turn_decision]
  rw [if_neg hne, if_neg hta, hcons]
  rfl

theorem annotate_loop_core (bb : Option ℚ) (acts : List Action)
    (pot : ℚ) (cur : Street) (committed : List (String × ℚ))
    (pots : Pots) :
    (annotate_loop bb acts pot cur committed pots).1.map
        (fun a => (a.street, a.player, a.action)) =
      acts.map (fun a => (a.street, a.player, a.action)) := by
  induction acts generalizing pot cur committed pots with
  | nil => rfl
  | cons a rest ih =>
      simp only [annotate_loop, List.map_cons]
      rw [ih]
      rfl

theorem annotate_core (acts : List Action) (bb : Option ℚ) :
    (annotate_actions_with_pot_and_bb acts bb).1.map
        (fun a => (a.street, a.player, a.action)) =
      acts.map (fun a => (a.street, a.player, a.action)) := by
  match acts with
  | [] => rfl
  | a :: rest => exact annotate_loop_core bb (a :: rest) 0 a.street [] {}

theorem any_core_transfer (l1 l2 : List Action)
    (h : l1.map (fun a => (a.street, a.player, a.action)) =
      l2.map (fun a => (a.street, a.player, a.action)))
    (q : Street × String × ActKind → Bool) :
    l1.any (fun a => q (a.street, a.player, a.action)) =
      l2.any (fun a => q (a.street, a.player, a.action)) := by
  have hmap : ∀ l : List Action,
      l.any (fun a => q (a.street, a.player, a.action)) =
      (l.map (fun a => (a.street, a.player, a.action))).any q := by
    intro l
    induction l with
    | nil => rfl
    | cons x xs ih => simp [List.any_cons, ih]
  rw [hmap l1, hmap l2, h]

theorem parse_hands_go_error (input : HandInput)
    (hb : ∀ j, build_hand j input = Except.error PyErr.typeError) :
    ∀ (pre : List HandInput) (idx : ℕ) (post : List HandInput),
      ∃ e, parse_hands_go idx (pre ++ input :: post) = Except.error e := by
  intro pre
  induction pre with
  | nil =>
      intro idx post
      refine ⟨PyErr.typeError, ?_⟩
      simp only [List.nil_append, parse_hands_go, hb idx]
  | cons i pre' ih =>
      intro idx post
      simp only [List.cons_append, parse_hands_go]
      cases hbi : build_hand idx i with
      | error e => exact ⟨e, rfl⟩
      | ok h =>
          obtain ⟨e, he⟩ := ih (idx + 1) post
          have he' : parse_hands_go (idx + 1)
              (pre'.append (input :: post)) = Except.error e := he
          rw [he']
          exact ⟨e, rfl⟩

set_option maxHeartbeats 1000000 in
/-- Any hand input with a named hero whose cards parse (or are
absent), at least one hero flop action and at least one non-uncalled
hero turn action reaches the turn engine, whose EV call raises
TypeError; build_hand propagates it whatever the hand id. -/
theorem build_hand_typeError (input : HandInput) (hn : String)
    (hhero : input.hero_name = some hn) (hne : hn ≠ "")
    (hcards : input.hero_cards = [] ∨
      (normalize_hand_key (input.hero_cards.map card_token)).isSome)
    (hflop : input.actions.any (fun a =>
      decide (a.street = Street.flop ∧ a.player = hn)) = true)
    (hturn : input.actions.any (fun a =>
      decide (a.street = Street.turn ∧ a.player = hn ∧
        a.action ≠ ActKind.uncalled)) = true) :
    ∀ j, build_hand j input = Except.error PyErr.typeError := by
  have hcore := annotate_core input.actions input.big_blind
  have hflop_ann : (annotate_actions_with_pot_and_bb input.actions
      input.big_blind).1.any (fun a =>
        decide (a.street = Street.flop ∧ a.player = hn)) = true := by
    have h1 := any_core_transfer _ _ hcore
      (fun t => decide (t.1 = Street.flop ∧ t.2.1 = hn))
    exact h1.trans hflop
  have hturn_ann : (annotate_actions_with_pot_and_bb input.actions
      input.big_blind).1.any (fun a =>
        decide (a.street = Street.turn ∧ a.player = hn ∧
          a.action ≠ ActKind.uncalled)) = true := by
    have h1 := any_core_transfer _ _ hcore
      (fun t => decide (t.1 = Street.turn ∧ t.2.1 = hn ∧
        t.2.2 ≠ ActKind.uncalled))
    exact h1.trans hturn
  have hfe : (((annotate_actions_with_pot_and_bb input.actions
      input.big_blind).1.filter (fun a =>
        a.street = Street.turn)).filter (fun a =>
        a.player = hn ∧ a.action ≠ ActKind.uncalled)) ≠ [] := by
    obtain ⟨a, ha, hqa⟩ := List.any_eq_true.mp hturn_ann
    obtain ⟨hs, hp, hu⟩ := of_decide_eq_true hqa
    have ha1 : a ∈ (annotate_actions_with_pot_and_bb input.actions
        input.big_blind).1.filter (fun a => a.street = Street.turn) :=
      List.mem_filter.mpr ⟨ha, by simp [hs]⟩
    have ha2 : a ∈ ((annotate_actions_with_pot_and_bb input.actions
        input.big_blind).1.filter (fun a =>
          a.street = Street.turn)).filter (fun a =>
          a.player = hn ∧ a.action ≠ ActKind.uncalled) :=
      List.mem_filter.mpr ⟨ha1, by simp [hp, hu]⟩
    exact List.ne_nil_of_mem ha2
  have hev := evaluate_hero_turn_decision_typeError _ hn hne hfe
  intro j
  rcases hcards with hc | hc
  · simp only [build_hand, py_step, hhero, hc]
    simp [hev]
    simpa using List.any_eq_true.mp hflop_ann
  · obtain ⟨k, hk⟩ := Option.isSome_iff_exists.mp hc
    by_cases hemp : input.hero_cards.isEmpty
    · simp only [build_hand, py_step, hhero, hemp]
      simp [hev]
      simpa using List.any_eq_true.mp hflop_ann
    · simp only [build_hand, py_step, hhero,
        estimate_preflop_equity_vs_unknown_range, hk]
      simp [hemp, hev]
      simpa using List.any_eq_true.mp hflop_ann

/-- Claim C1: for every hand input with a named hero whose cards parse
(or are absent), at least one hero flop action and at least one
non-uncalled hero turn action, build_hand fails with the TypeError
raised by the turn engine's keyword call to compute_ev_estimate_v1
(it passes sizing, equity_estimate and facing_bet, which the
keyword-only signature does not accept, and omits the required street,
pot_before, investment and estimated_equity), and any batch containing
such a hand fails as a whole. -/
theorem c1_turn_typeerror (idx : ℕ) (input : HandInput) (hn : String)
    (hhero : input.hero_name = some hn) (hne : hn ≠ "")
    (hcards : input.hero_cards = [] ∨
      (normalize_hand_key (input.hero_cards.map card_token)).isSome)
    (hflop : input.actions.any (fun a =>
      decide (a.street = Street.flop ∧ a.player = hn)) = true)
    (hturn : input.actions.any (fun a =>
      decide (a.street = Street.turn ∧ a.player = hn ∧
        a.action ≠ ActKind.uncalled)) = true) :
    build_hand idx input = Except.error PyErr.typeError ∧
    ∀ (pre post : List HandInput), ∃ e,
      parse_hands (pre ++ input :: post) = Except.error e := by
  have hbuild := build_hand_typeError input hn hhero hne hcards hflop
    hturn
  refine ⟨hbuild idx, ?_⟩
  intro pre post
  exact parse_hands_go_error input hbuild pre 1 post

/-- Claim C1 witness: a heads-up hand in which the hero checks the
flop and the turn; the hand build and the single-hand batch both fail
with a TypeError. -/
theorem c1_witness :
    ex_c1.hero_name = some "H" ∧
    (ex_c1.actions.any (fun a =>
      decide (a.street = Street.flop ∧ a.player = "H"))) = true ∧
    (ex_c1.actions.any (fun a =>
      decide (a.street = Street.turn ∧ a.player = "H" ∧
        a.action ≠ ActKind.uncalled))) = true ∧
    build_hand 1 ex_c1 = Except.error PyErr.typeError ∧
    parse_hands [ex_c1] = Except.error PyErr.typeError := by
  have h := c1_turn_typeerror 1 ex_c1 "H" rfl (by decide)
    (Or.inr (by decide)) (by decide) (by decide)
  obtain ⟨hb, -⟩ := h
  refine ⟨rfl, by decide, by decide, hb, ?_⟩
  simp only [parse_hands, parse_hands_go, hb]



set_option maxHeartbeats 2000000 in
/-- Full evaluation of the pot annotator on the claim C7 scenario:
the turn is reached with a pot of exactly 100. -/
theorem ex_c7_ann_eval : ex_c7_ann =
    [⟨.preflop, "V", .post_sb, some 1, some (1/2), some 0, some 1, none⟩,
     ⟨.preflop, "H", .post_bb, some 2, some 1, some 1, some 3, some 2⟩,
     ⟨.preflop, "V", .raise, some 25, some (25/2), some 3, some 27,
      some (25/3)⟩,
     ⟨.preflop, "H", .call, some 23, some (23/2), some 27, some 50,
      some (23/27)⟩,
     ⟨.flop, "V", .bet, some 25, some (25/2), some 50, some 75,
      some (1/2)⟩,
     ⟨.flop, "H", .call, some 25, some (25/2), some 75, some 100,
      some (1/3)⟩,
     ⟨.turn, "V", .check, none, none, some 100, some 100, none⟩,
     ⟨.turn, "H", .check, none, none, some 100, some 100, none⟩] := by
  have hVH : ("V" == "H") = false := by decide
  have hHV : ("H" == "V") = false := by decide
  have hVV : ("V" == "V") = true := by decide
  have hHH : ("H" == "H") = true := by decide
  norm_num +decide [ex_c7_ann, ex_c7, annotate_actions_with_pot_and_bb,
    annotate_loop, pot_step, street_switch, annotate_one, map_get,
    map_set, List.lookup, hVH, hHV, hVV, hHH]

set_option maxHeartbeats 1000000 in
/-- Claim C7, settled as a code bug.  In the exact claimed scenario —
hero holds a set after the flop (category "set"), checks the turn as
the last of two players with pot_before = 100 — the turn engine does
not produce any decision record, let alone one carrying a
missed-value flag: its final EV call binds unacceptable keywords and
raises TypeError, which aborts the hand build and the batch.  The
TurnDecision record built by the source (were the call valid) has no
missed-value field either; only the river engine computes a
missed-value estimate, and the parser never calls it. -/
theorem c7_missed_value_code_bug :
    evaluate_flop_hand_category ex_c7.hero_cards ex_c7.board =
      some "set" ∧
    ((ex_c7_ann.filter (fun a => a.street = Street.turn)).map
      (fun a => (a.player, a.action, a.pot_before))) =
      [("V", ActKind.check, some (100 : ℚ)),
       ("H", ActKind.check, some (100 : ℚ))] ∧
    evaluate_hero_turn_decision ex_c7_ann (some "H") none none none
      ex_c7.board = Except.error PyErr.typeError ∧
    build_hand 1 ex_c7 = Except.error PyErr.typeError ∧
    parse_hands [ex_c7] = Except.error PyErr.typeError := by
  have hfe : ((ex_c7_ann.filter (fun a =>
      a.street = Street.turn)).filter (fun a =>
      a.player = "H" ∧ a.action ≠ ActKind.uncalled)) ≠ [] := by
    rw [ex_c7_ann_eval]
    decide
  have hb := build_hand_typeError ex_c7 "H" rfl (by decide)
    (Or.inr (by decide)) (by decide) (by decide)
  refine ⟨by decide, ?_, ?_, hb 1, ?_⟩
  · rw [ex_c7_ann_eval]
    decide
  · exact evaluate_hero_turn_decision_typeError ex_c7_ann "H"
      (by decide) hfe none none none ex_c7.board
  · simp only [parse_hands, parse_hands_go, hb 1]



theorem evaluate_hero_turn_decision_ok (actions : List Action)
    (hero_name hpos : Option String) (hpa : Option HeroPreflopAnalysis)
    (hfd : Option FlopDecision) (board : List Card)
    (t : Option TurnDecision)
    (h : evaluate_hero_turn_decision actions hero_name hpos hpa hfd
      board = Except.ok t) : t = none := by
  rcases hero_name with _ | hn
  · simp only [evaluate_hero_turn_decision] at h
    exact (Except.ok.inj h).symm
  · simp only [evaluate_hero_turn_decision] at h
    by_cases h1 : hn = ""
    · rw [if_pos h1] at h
      exact (Except.ok.inj h).symm
    · rw [if_neg h1] at h
      by_cases h2 : actions.filter (fun a =>
          decide (a.street = Street.turn)) = []
      · rw [if_pos h2] at h
        exact (Except.ok.inj h).symm
      · rw [if_neg h2] at h
        cases h3 : (actions.filter (fun a =>
            decide (a.street = Street.turn))).filter (fun a =>
            decide (a.player = hn ∧ a.action ≠ ActKind.uncalled)) with
        | nil =>
            rw [h3] at h
            exact (Except.ok.inj h).symm
        | cons first rest =>
            rw [h3] at h
            exact absurd (show Except.error PyErr.typeError =
              Except.ok t from h) (by simp)

theorem compute_hero_flop_decision_isSome (actions : List Action)
    (hn : String) (hpos : Option String)
    (hpa : Option HeroPreflopAnalysis) (cat : Option String)
    (detail : Option FlopHandDetail) :
    (compute_hero_flop_decision actions (some hn) hpos hpa cat
      detail).isSome = true ↔
    (hn ≠ "" ∧ ∃ a ∈ actions, a.street = Street.flop ∧ a.player = hn ∧
      a.action ≠ ActKind.uncalled) := by
  simp only [compute_hero_flop_decision]
  by_cases hne : hn = ""
  · rw [if_pos hne]
    simp [hne]
  · rw [if_neg hne]
    by_cases hfa : actions.filter (fun a =>
        decide (a.street = Street.flop)) = []
    · rw [if_pos hfa]
      simp only [Option.isSome_none]
      constructor
      · intro h0
        exact absurd h0 (by decide)
      · rintro ⟨-, a, ha, hs, -, -⟩
        have := List.filter_eq_nil_iff.mp hfa a ha
        simp [hs] at this
    · rw [if_neg hfa]
      cases hfil : (actions.filter (fun a =>
          decide (a.street = Street.flop))).filter (fun a =>
          decide (a.player = hn ∧ a.action ≠ ActKind.uncalled)) with
      | nil =>
          simp only [Option.isSome_none]
          constructor
          · intro h0
            exact absurd h0 (by decide)
          · rintro ⟨-, a, ha, hs, hp, hu⟩
            have ha1 : a ∈ actions.filter (fun a =>
                decide (a.street = Street.flop)) :=
              List.mem_filter.mpr ⟨ha, by simp [hs]⟩
            have ha2 : a ∈ (actions.filter (fun a =>
                decide (a.street = Street.flop))).filter (fun a =>
                decide (a.player = hn ∧ a.action ≠ ActKind.uncalled)) :=
              List.mem_filter.mpr ⟨ha1, by simp [hp, hu]⟩
            rw [hfil] at ha2
            exact absurd ha2 (List.not_mem_nil a)
      | cons first rest =>
          simp only [Option.isSome_some, true_iff]
          refine ⟨hne, ?_⟩
          have hmem : first ∈ (actions.filter (fun a =>
              decide (a.street = Street.flop))).filter (fun a =>
              decide (a.player = hn ∧ a.action ≠ ActKind.uncalled)) := by
            rw [hfil]
            exact List.mem_cons_self _ _
          obtain ⟨h1, h2⟩ := List.mem_filter.mp hmem
          obtain ⟨h3, h4⟩ := List.mem_filter.mp h1
          obtain ⟨hp, hu⟩ := of_decide_eq_true h2
          exact ⟨first, h3, of_decide_eq_true h4, hp, hu⟩

theorem exists_core_transfer (l1 l2 : List Action)
    (h : l1.map (fun a => (a.street, a.player, a.action)) =
      l2.map (fun a => (a.street, a.player, a.action)))
    (q : Street × String × ActKind → Prop) :
    (∃ a ∈ l1, q (a.street, a.player, a.action)) ↔
      (∃ a ∈ l2, q (a.street, a.player, a.action)) := by
  have h1 : ∀ l : List Action,
      (∃ a ∈ l, q (a.street, a.player, a.action)) ↔
      ∃ t ∈ l.map (fun a => (a.street, a.player, a.action)), q t := by
    intro l
    constructor
    · rintro ⟨a, ha, hq⟩
      exact ⟨_, List.mem_map_of_mem _ ha, hq⟩
    · rintro ⟨t, ht, hq⟩
      obtain ⟨a, ha, rfl⟩ := List.mem_map.mp ht
      exact ⟨a, ha, hq⟩
  rw [h1 l1, h1 l2, h]

theorem py_step_ok {α β : Type} (E : Except PyErr α)
    (F : α → Except PyErr β) {b : β}
    (h : py_step E F = Except.ok b) :
    ∃ x, E = Except.ok x ∧ F x = Except.ok b := by
  cases E with
  | error e => exact absurd h (by simp [py_step])
  | ok x => exact ⟨x, rfl, h⟩

set_option maxHeartbeats 1000000 in
/-- Claim C8, amended.  For every hand the parser builds successfully,
a flop decision record is present if and only if the hero is named and
has a non-uncalled flop action; the turn decision field is always
empty on a built hand (a hero turn action makes the build raise
instead, and the turn engine's only successful results carry no
decision); and a river decision field does not exist in the Hand
record at all, so river presence is identically false. -/
theorem c8_decision_presence (idx : ℕ) (input : HandInput) (h : Hand)
    (hok : build_hand idx input = Except.ok h) :
    (street_decision_present h Street.flop = true ↔
      ∃ hn, input.hero_name = some hn ∧ hn ≠ "" ∧
        ∃ a ∈ input.actions, a.street = Street.flop ∧ a.player = hn ∧
          a.action ≠ ActKind.uncalled) ∧
    street_decision_present h Street.turn = false ∧
    street_decision_present h Street.river = false := by
  have hcore := annotate_core input.actions input.big_blind
  rcases hhn : input.hero_name with _ | hn
  · simp only [build_hand, hhn] at hok
    obtain ⟨hpe, hstep, hok2⟩ := py_step_ok _ _ hok
    rw [if_pos (by decide)] at hok2
    have hh := (Except.ok.inj hok2).symm
    subst hh
    refine ⟨?_, rfl, rfl⟩
    simp only [street_decision_present]
    simp [hhn]
  · simp only [build_hand, hhn] at hok
    obtain ⟨hpe, hstep, hok2⟩ := py_step_ok _ _ hok
    by_cases hact : (annotate_actions_with_pot_and_bb input.actions
        input.big_blind).1.any (fun a =>
          decide (a.street = Street.flop ∧ a.player = hn)) = true
    · rw [hact] at hok2
      rw [if_neg (by decide)] at hok2
      obtain ⟨td, hev, hok3⟩ := py_step_ok _ _ hok2
      have htd : td = none :=
        evaluate_hero_turn_decision_ok _ _ _ _ _ _ _ hev
      have hh := (Except.ok.inj hok3).symm
      subst hh
      subst htd
      refine ⟨?_, rfl, rfl⟩
      simp only [street_decision_present]
      rw [compute_hero_flop_decision_isSome]
      constructor
      · rintro ⟨hne, wit⟩
        refine ⟨hn, rfl, hne, ?_⟩
        have hiff := exists_core_transfer _ _ hcore (fun t =>
          t.1 = Street.flop ∧ t.2.1 = hn ∧ t.2.2 ≠ ActKind.uncalled)
        exact hiff.mp (by
          obtain ⟨a, ha, h1, h2, h3⟩ := wit
          exact ⟨a, ha, h1, h2, h3⟩)
      · rintro ⟨hn2, hhn2, hne, wit⟩
        have hn2eq : hn2 = hn := (Option.some.inj hhn2).symm
        rw [hn2eq] at hne wit
        refine ⟨hne, ?_⟩
        have hiff := exists_core_transfer _ _ hcore (fun t =>
          t.1 = Street.flop ∧ t.2.1 = hn ∧ t.2.2 ≠ ActKind.uncalled)
        exact (by
          obtain ⟨a, ha, h1, h2, h3⟩ := hiff.mpr (by
            obtain ⟨a, ha, h1, h2, h3⟩ := wit
            exact ⟨a, ha, h1, h2, h3⟩)
          exact ⟨a, ha, h1, h2, h3⟩)
    · have hact' : (annotate_actions_with_pot_and_bb input.actions
          input.big_blind).1.any (fun a =>
            decide (a.street = Street.flop ∧ a.player = hn)) = false :=
        eq_false_of_ne_true hact
      rw [hact'] at hok2
      rw [if_pos (by decide)] at hok2
      have hh := (Except.ok.inj hok2).symm
      subst hh
      refine ⟨?_, rfl, rfl⟩
      simp only [street_decision_present]
      simp only [Option.isSome_none]
      constructor
      · intro h0
        exact absurd h0 (by decide)
      · rintro ⟨hn2, hhn2, hne, a, ha, h1, h2, h3⟩
        have hn2eq : hn2 = hn := (Option.some.inj hhn2).symm
        rw [hn2eq] at h2
        have hany : input.actions.any (fun a =>
            decide (a.street = Street.flop ∧ a.player = hn)) = true := by
          rw [List.any_eq_true]
          exact ⟨a, ha, by simp [h1, h2]⟩
        have htr := any_core_transfer _ _ hcore (fun t =>
          decide (t.1 = Street.flop ∧ t.2.1 = hn))
        rw [htr.trans hany] at hact'
        exact absurd hact' (by decide)

set_option maxHeartbeats 1000000 in
/-- Claim C8 counterexample: in a hand where the hero checks the flop
and the river (and the turn has no actions), the hand builds, the flop
decision is present, but no river decision exists even though the hero
acted on the river — refuting presence-iff-acted as stated. -/
theorem c8_counterexample :
    hero_acted_on ex_c8 Street.river = true ∧
    (build_hand 1 ex_c8).map (fun h =>
      street_decision_present h Street.river) = Except.ok false ∧
    (build_hand 1 ex_c8).map (fun h =>
      street_decision_present h Street.flop) = Except.ok true := by
  refine ⟨by decide, rfl, rfl⟩

set_option maxHeartbeats 1000000 in
/-- Claim C8 witness: on the same built hand, the flop decision is
present exactly as the amended statement predicts, and the turn
decision field is empty. -/
theorem c8_witness :
    hero_acted_on ex_c8 Street.flop = true ∧
    (build_hand 1 ex_c8).map (fun h =>
      street_decision_present h Street.flop) = Except.ok true ∧
    (build_hand 1 ex_c8).map (fun h =>
      street_decision_present h Street.turn) = Except.ok false := by
  obtain ⟨h, hb⟩ : ∃ h, build_hand 1 ex_c8 = Except.ok h := ⟨_, rfl⟩
  obtain ⟨hiff, hturn, hriver⟩ := c8_decision_presence 1 ex_c8 h hb
  refine ⟨by decide, ?_, ?_⟩
  · rw [hb]
    simp only [Except.map]
    rw [hiff.mpr ⟨"H", rfl, by decide, by decide⟩]
  · rw [hb]
    simp only [Except.map]
    rw [hturn]

end Pkr
